import Mathlib

/-!
Verification development for the scheduling API (Express + chrono-node + Luxon).

The source under scrutiny is the first document of `src/unnamed/part_000`
(the version whose functions are `hasTimeForScheduling`, `preprocessText`,
`detectTimezone`, `adjustToFuture`, `parseMultipleDays`, `parseDateRange`,
`processChronoDate` and the `/parse` handler); `src/src/scheduling-api.js`
shares `detectTimezone` verbatim.

Embedding conventions:
* A JavaScript `Date` is its epoch value in milliseconds, an `Int`.  The
  server's local timezone is modelled as UTC with no DST, so the local
  calendar getters/setters (`getDate`, `setHours`, ...) are pure arithmetic
  on the epoch value.  Under this convention
  `x.setDate(x.getDate() + k)` is exactly `x + k * oneDayMs`.
* The Luxon library is an external collaborator: zone construction
  (`DateTime.fromObject` with a `zone`) is an oracle parameter returning a
  `LuxonOutcome` (valid epoch value, invalid, or thrown exception); the code's
  handling of those outcomes is what is translated.  Pure Luxon arithmetic
  (`fromJSDate(..., UTC).minus({minutes})`) is ordinary subtraction.
* chrono-node is a black box; its parse results are oracle data.
* Regular expressions from the source are translated one by one into
  character-list matchers with JavaScript semantics (leftmost match,
  greedy/lazy quantifiers with backtracking, `\b` word boundaries).
-/

/-! ## Time arithmetic: the epoch-millisecond model of JS `Date` -/

def oneDayMs : Int := 24 * 60 * 60 * 1000

def oneWeekMs : Int := 7 * oneDayMs

/-- Start of the (UTC) calendar day containing `t`; `%` is Euclidean so the
remainder is in `[0, oneDayMs)` also for negative `t`. -/
def dayFloorMs (t : Int) : Int := t - t % oneDayMs

/-- Calendar days since the epoch (`1970-01-01`). -/
def epochDay (t : Int) : Int := dayFloorMs t / oneDayMs

/-- JS `getDay()`: weekday, Sunday = 0 .. Saturday = 6.  Day 0 of the epoch
was a Thursday, hence the `+ 4`. -/
def jsGetDay (t : Int) : Int := (epochDay t + 4) % 7

/-- Time-of-day of `t` with the millisecond component zeroed: the value of
`h*3600000 + m*60000 + s*1000` for `t.getHours()/getMinutes()/getSeconds()`. -/
def todSecMs (t : Int) : Int := t % oneDayMs - t % 1000

/-- JS `x.setHours(h, mi, s, 0)` under the UTC-local convention. -/
def setHMS (t h mi s : Int) : Int := dayFloorMs t + h * 3600000 + mi * 60000 + s * 1000

/-- Days since the epoch of the civil date `(y, m, d)` with `m ∈ 1..12`
(days out of range roll over, as in JS).  Howard Hinnant's civil-calendar
algorithm; Lean's `/` on `Int` is Euclidean division, which for the positive
divisors used here is exactly the floor division the algorithm needs (so the
truncating-division workarounds of the C version are unnecessary). -/
def daysFromCivil (y m d : Int) : Int :=
  let y2 : Int := if m ≤ 2 then y - 1 else y
  let era : Int := y2 / 400
  let yoe : Int := y2 - era * 400
  let mp : Int := if 2 < m then m - 3 else m + 9
  let doy : Int := (153 * mp + 2) / 5 + d - 1
  let doe : Int := yoe * 365 + yoe / 4 - yoe / 100 + doy
  era * 146097 + doe - 719468

/-- Inverse of `daysFromCivil`: the civil date `(year, month 1..12, day)` of
an epoch day count. -/
def civilFromDays (z0 : Int) : Int × Int × Int :=
  let z : Int := z0 + 719468
  let era : Int := z / 146097
  let doe : Int := z - era * 146097
  let yoe : Int := (doe - doe / 1460 + doe / 36524 - doe / 146096) / 365
  let y : Int := yoe + era * 400
  let doy : Int := doe - (365 * yoe + yoe / 4 - yoe / 100)
  let mp : Int := (5 * doy + 2) / 153
  let d : Int := doy - (153 * mp + 2) / 5 + 1
  let m : Int := if mp < 10 then mp + 3 else mp - 9
  (if m ≤ 2 then y + 1 else y, m, d)

/-- JS `getFullYear()`. -/
def jsGetFullYear (t : Int) : Int := (civilFromDays (epochDay t)).1

/-- JS `getMonth()` (0-based, January = 0). -/
def jsGetMonth (t : Int) : Int := (civilFromDays (epochDay t)).2.1 - 1

/-- JS `getDate()` (day of month, 1-based). -/
def jsGetDate (t : Int) : Int := (civilFromDays (epochDay t)).2.2

/-- JS `new Date(year, monthIndex, day, h, mi, s, 0)` with `monthIndex`
0-based; out-of-range month and day roll over as in JS. -/
def mkDateMs (y monthIdx d h mi s : Int) : Int :=
  let y2 : Int := y + monthIdx / 12
  let m1 : Int := monthIdx % 12 + 1
  daysFromCivil y2 m1 d * oneDayMs + h * 3600000 + mi * 60000 + s * 1000

/-- Month names as produced by `toLocaleString('en', { month: 'long' })`. -/
def monthNames : List String :=
  ["January", "February", "March", "April", "May", "June", "July",
   "August", "September", "October", "November", "December"]

/-- The current month's English name, from the sampled instant. -/
def monthNameOf (t : Int) : String :=
  (monthNames.getD ((civilFromDays (epochDay t)).2.1 - 1).toNat "January")

example : daysFromCivil 1970 1 1 = 0 := by decide
example : civilFromDays 0 = (1970, 1, 1) := by decide
example : jsGetDay 0 = 4 := by decide
example : mkDateMs 2025 10 15 22 0 0 = 1763244000000 := by decide
example : mkDateMs 2025 8 1 0 0 0 = 1756684800000 := by decide
example : jsGetMonth 1764072000000 = 10 ∧ jsGetFullYear 1764072000000 = 2025 ∧
    jsGetDate 1764072000000 = 25 := by decide
example : monthNameOf 1756684800000 = "September" := by decide

/-! ## Characters, strings, and regex building blocks

Inputs of interest are ASCII; JS `\w` is `[A-Za-z0-9_]`, `\s` contains the
ASCII whitespace characters used here.  Matchers work on `List Char` with an
explicit previous-character parameter for `\b` word boundaries. -/

abbrev Chars := List Char

def lowerC (c : Char) : Char :=
  if 65 ≤ c.toNat && c.toNat ≤ 90 then Char.ofNat (c.toNat + 32) else c

def lowerStr (s : String) : String := String.mk (s.data.map lowerC)

def isDigitC (c : Char) : Bool := 48 ≤ c.toNat && c.toNat ≤ 57

def isAsciiLetter (c : Char) : Bool :=
  (65 ≤ c.toNat && c.toNat ≤ 90) || (97 ≤ c.toNat && c.toNat ≤ 122)

def isWordC (c : Char) : Bool := isAsciiLetter c || isDigitC c || c.toNat = 95

def isSpaceC (c : Char) : Bool :=
  c.toNat = 32 || c.toNat = 9 || c.toNat = 10 || c.toNat = 13 || c.toNat = 11 || c.toNat = 12

def digitVal (c : Char) : Nat := c.toNat - 48

/-- `\b` at a position whose next character is a word character: the previous
character must be absent or a non-word character. -/
def bdryBeforeWord (prev : Option Char) : Bool :=
  match prev with
  | none => true
  | some c => !isWordC c

/-- `\b` at a position whose next character is a non-word character (`+`/`-`):
the previous character must be a word character. -/
def bdryBeforeNonword (prev : Option Char) : Bool :=
  match prev with
  | none => false
  | some c => isWordC c

/-- `\b` directly after a word character: the rest must be empty or start with
a non-word character. -/
def bdryAfterWord (rest : Chars) : Bool :=
  match rest with
  | [] => true
  | c :: _ => !isWordC c

/-- First alternative (in priority order) on which the continuation
succeeds — backtracking for the small bounded quantifiers used here. -/
def firstSome {α β : Type} : List α → (α → Option β) → Option β
  | [], _ => none
  | a :: as, f => match f a with
      | some b => some b
      | none => firstSome as f

/-- `\d{1,2}`, greedy: the two-digit reading first, then the one-digit one.
Yields (value, matched, rest). -/
def digits12 (s : Chars) : List (Nat × Chars × Chars) :=
  match s with
  | a :: b :: rest =>
    if isDigitC a && isDigitC b then
      [(digitVal a * 10 + digitVal b, [a, b], rest), (digitVal a, [a], b :: rest)]
    else if isDigitC a then [(digitVal a, [a], b :: rest)] else []
  | [a] => if isDigitC a then [(digitVal a, [a], [])] else []
  | [] => []

/-- `\d{2}` exactly. -/
def digits2 (s : Chars) : Option (Nat × Chars × Chars) :=
  match s with
  | a :: b :: rest =>
    if isDigitC a && isDigitC b then some (digitVal a * 10 + digitVal b, [a, b], rest)
    else none
  | _ => none

/-- Maximal run of whitespace, as (matched, rest).  Every use of `\s*`/`\s+`
in the source is followed by a digit, sign or letter, so maximal munch agrees
with the backtracking semantics. -/
def spanSpaces : Chars → Chars × Chars
  | [] => ([], [])
  | c :: rest =>
    if isSpaceC c then
      let (m, r) := spanSpaces rest
      (c :: m, r)
    else ([], c :: rest)

/-- `\s+`. -/
def spaces1 (s : Chars) : Option (Chars × Chars) :=
  match s with
  | c :: rest =>
    if isSpaceC c then
      let (m, r) := spanSpaces rest
      some (c :: m, r)
    else none
  | [] => none

/-- Case-insensitive literal (pattern given in lowercase); returns the matched
original characters and the rest. -/
def litCI : Chars → Chars → Option (Chars × Chars)
  | [], s => some ([], s)
  | _ :: _, [] => none
  | p :: ps, c :: cs =>
    if lowerC c = p then (litCI ps cs).map (fun (m, r) => (c :: m, r)) else none

/-- Case-sensitive literal. -/
def litEx : Chars → Chars → Option (Chars × Chars)
  | [], s => some ([], s)
  | _ :: _, [] => none
  | p :: ps, c :: cs =>
    if c = p then (litEx ps cs).map (fun (m, r) => (c :: m, r)) else none

/-- `(?:am|pm)` case-insensitively. -/
def ampmCI (s : Chars) : Option (Chars × Chars) :=
  match litCI "am".data s with
  | some r => some r
  | none => litCI "pm".data s

/-- `(?:st|nd|rd|th)` case-insensitively (the alternatives are mutually
exclusive on their first letter). -/
def ordSufCI (s : Chars) : Option (Chars × Chars) :=
  match litCI "st".data s with
  | some r => some r
  | none => match litCI "nd".data s with
    | some r => some r
    | none => match litCI "rd".data s with
      | some r => some r
      | none => litCI "th".data s

/-- `(\d{1,2}(?::\d{2})?\s*(?:am|pm))` — the 12-hour-time group shared by the
normalizer patterns; alternatives in greedy priority order, each as
(matched, rest). -/
def timeTokAlts (s : Chars) : List (Chars × Chars) :=
  (digits12 s).flatMap (fun (_, dm, r1) =>
    let colonAlts : List (Chars × Chars) :=
      (match r1 with
       | c :: r2 =>
         if c.toNat = 58 then
           match digits2 r2 with
           | some (_, mm, r3) => [(c :: mm, r3)]
           | none => []
         else []
       | [] => []) ++ [([], r1)]
    colonAlts.flatMap (fun (cm, r2) =>
      let (sp, r3) := spanSpaces r2
      match ampmCI r3 with
      | some (ap, r4) => [(dm ++ cm ++ sp ++ ap, r4)]
      | none => []))

/-! ## The normalizer `preprocessText` -/

/-- Ordinal suffix as computed inside each normalizer replacement callback:
`11..13 → th`, else by last digit `1/2/3 → st/nd/rd`, default `th`. -/
def ordinalSuffix (n : Nat) : String :=
  if 11 ≤ n && n ≤ 13 then "th"
  else if n % 10 = 1 then "st"
  else if n % 10 = 2 then "nd"
  else if n % 10 = 3 then "rd"
  else "th"

/-- Normalizer pattern 1,
`\b(\d{1,2}(?::\d{2})?\s*(?:am|pm))\s+on\s+(\d{1,2})(?:st|nd|rd|th)?\b` (gi):
at a position, yields (matched, timeGroup, dayValue, dayDigits, rest). -/
def pp1At (prev : Option Char) (s : Chars) : Option (Chars × Chars × Nat × Chars × Chars) :=
  if bdryBeforeWord prev then
    firstSome (timeTokAlts s) (fun (tm, r1) =>
      (spaces1 r1).bind (fun (sp1, r2) =>
        (litCI "on".data r2).bind (fun (onm, r3) =>
          (spaces1 r3).bind (fun (sp2, r4) =>
            firstSome (digits12 r4) (fun (dv, dm, r5) =>
              let sufAlts : List (Chars × Chars) :=
                (match ordSufCI r5 with
                 | some (sm, r6) => [(sm, r6)]
                 | none => []) ++ [([], r5)]
              firstSome sufAlts (fun (sm, r6) =>
                if bdryAfterWord r6 then
                  some (tm ++ sp1 ++ onm ++ sp2 ++ dm ++ sm, tm, dv, dm, r6)
                else none))))))
  else none

/-- Normalizer pattern 2,
`\b(\d{1,2})(?:st|nd|rd|th)?\s+(\d{1,2}(?::\d{2})?\s*(?:am|pm))\b` (gi):
yields (matched, dayValue, dayDigits, timeGroup, rest). -/
def pp2At (prev : Option Char) (s : Chars) : Option (Chars × Nat × Chars × Chars × Chars) :=
  if bdryBeforeWord prev then
    firstSome (digits12 s) (fun (dv, dm, r1) =>
      let sufAlts : List (Chars × Chars) :=
        (match ordSufCI r1 with
         | some (sm, r2) => [(sm, r2)]
         | none => []) ++ [([], r1)]
      firstSome sufAlts (fun (sm, r2) =>
        (spaces1 r2).bind (fun (sp1, r3) =>
          firstSome (timeTokAlts r3) (fun (tm, r4) =>
            if bdryAfterWord r4 then
              some (dm ++ sm ++ sp1 ++ tm, dv, dm, tm, r4)
            else none))))
  else none

/-- Normalizer pattern 3,
`\b(\d{1,2}(?::\d{2})?\s*(?:am|pm))\s+(\d{1,2}(?:st|nd|rd|th))\b` (gi) — the
day group requires its ordinal suffix; yields (matched, timeGroup,
dayWithSuffix, rest). -/
def pp3At (prev : Option Char) (s : Chars) : Option (Chars × Chars × Chars × Chars) :=
  if bdryBeforeWord prev then
    firstSome (timeTokAlts s) (fun (tm, r1) =>
      (spaces1 r1).bind (fun (sp1, r2) =>
        firstSome (digits12 r2) (fun (_, dm, r3) =>
          (ordSufCI r3).bind (fun (sm, r4) =>
            if bdryAfterWord r4 then
              some (tm ++ sp1 ++ dm ++ sm, tm, dm ++ sm, r4)
            else none))))
  else none

/-- Normalizer pattern 4,
`\bat\s+(\d{1,2}(?::\d{2})?\s*(?:am|pm))\s+on\s+(\d{1,2})(?:st|nd|rd|th)?\b`
(gi): yields (matched, timeGroup, dayValue, dayDigits, rest). -/
def pp4At (prev : Option Char) (s : Chars) : Option (Chars × Chars × Nat × Chars × Chars) :=
  if bdryBeforeWord prev then
    (litCI "at".data s).bind (fun (atm, r0) =>
      (spaces1 r0).bind (fun (sp0, r1) =>
        firstSome (timeTokAlts r1) (fun (tm, r2) =>
          (spaces1 r2).bind (fun (sp1, r3) =>
            (litCI "on".data r3).bind (fun (onm, r4) =>
              (spaces1 r4).bind (fun (sp2, r5) =>
                firstSome (digits12 r5) (fun (dv, dm, r6) =>
                  let sufAlts : List (Chars × Chars) :=
                    (match ordSufCI r6 with
                     | some (sm, r7) => [(sm, r7)]
                     | none => []) ++ [([], r6)]
                  firstSome sufAlts (fun (sm, r7) =>
                    if bdryAfterWord r7 then
                      some (atm ++ sp0 ++ tm ++ sp1 ++ onm ++ sp2 ++ dm ++ sm, tm, dv, dm, r7)
                    else none))))))))
  else none

/-- Global-replace driver with JS `String.replace(/…/g)` semantics: scan left
to right; at a match emit the replacement and resume right after the matched
substring (the boundary context for the next attempt is the last matched
character of the original text).  Fuel is the remaining length, enough since
every match consumes at least one character. -/
def replaceAllGo (matchAt : Option Char → Chars → Option (Chars × Chars × Chars)) :
    Nat → Option Char → Chars → Chars
  | 0, _, s => s
  | _ + 1, _, [] => []
  | n + 1, prev, c :: rest =>
    match matchAt prev (c :: rest) with
    | some (repl, matched, restAfter) =>
      repl ++ replaceAllGo matchAt n (matched.getLast?) restAfter
    | none => c :: replaceAllGo matchAt n (some c) rest

def jsReplaceAll (matchAt : Option Char → Chars → Option (Chars × Chars × Chars))
    (s : Chars) : Chars :=
  replaceAllGo matchAt (s.length + 1) none s

/-- JS `String.trim()`. -/
def trimChars (s : Chars) : Chars :=
  ((s.dropWhile isSpaceC).reverse.dropWhile isSpaceC).reverse

/-- Replacement for pattern 1: `` `${time} on ${day}${suffix} of ${month}` ``. -/
def pp1Find (month : String) (prev : Option Char) (s : Chars) :
    Option (Chars × Chars × Chars) :=
  (pp1At prev s).map (fun (matched, tm, dv, dm, rest) =>
    (tm ++ " on ".data ++ dm ++ (ordinalSuffix dv).data ++ " of ".data ++ month.data,
     matched, rest))

/-- Replacement for pattern 2: `` `${time} on ${day}${suffix} of ${month}` ``. -/
def pp2Find (month : String) (prev : Option Char) (s : Chars) :
    Option (Chars × Chars × Chars) :=
  (pp2At prev s).map (fun (matched, dv, dm, tm, rest) =>
    (tm ++ " on ".data ++ dm ++ (ordinalSuffix dv).data ++ " of ".data ++ month.data,
     matched, rest))

/-- Replacement for pattern 3: `` `$1 on $2 of ${month}` `` ($2 keeps its
matched suffix). -/
def pp3Find (month : String) (prev : Option Char) (s : Chars) :
    Option (Chars × Chars × Chars) :=
  (pp3At prev s).map (fun (matched, tm, dws, rest) =>
    (tm ++ " on ".data ++ dws ++ " of ".data ++ month.data, matched, rest))

/-- Replacement for pattern 4: `` `at ${time} on ${day}${suffix} of ${month}` ``. -/
def pp4Find (month : String) (prev : Option Char) (s : Chars) :
    Option (Chars × Chars × Chars) :=
  (pp4At prev s).map (fun (matched, tm, dv, dm, rest) =>
    ("at ".data ++ tm ++ " on ".data ++ dm ++ (ordinalSuffix dv).data ++ " of ".data
       ++ month.data,
     matched, rest))

/-- `preprocessText`: trim, then the four global replacements in order, each
seeing the previous one's output.  `now` is the `new Date()` the source
samples inside the function; it only determines the month name. -/
def preprocessText (now : Int) (text : String) : String :=
  let month := monthNameOf now
  let t0 := trimChars text.data
  let t1 := jsReplaceAll (pp1Find month) t0
  let t2 := jsReplaceAll (pp2Find month) t1
  let t3 := jsReplaceAll (pp3Find month) t2
  let t4 := jsReplaceAll (pp4Find month) t3
  String.mk t4

example : preprocessText 1756684800000 "11pm on 23" = "11pm on 23rd of September" := by decide
example : preprocessText 1756684800000 "23rd 11pm" = "11pm on 23rd of September" := by decide
example : preprocessText 1756684800000 "11pm 23rd" = "11pm on 23rd of September" := by decide
example : preprocessText 1756684800000 "available from 15th to 20th at 10pm netherlands"
    = "available from 15th to 20th at 10pm netherlands" := by decide
example : preprocessText 1756684800000 "available on monday 10pm to thursday 10pm est"
    = "available on monday 10pm to thursday 10pm est" := by decide

/-! ## The relevance filter `hasTimeForScheduling` -/

/-- Scan a text left to right, attempting a positional matcher at every
index (tracking the previous character for `\b`); JS leftmost-match search. -/
def scanWithPrev {α : Type} (f : Option Char → Chars → Option α) :
    Option Char → Chars → Option α
  | _, [] => none
  | prev, c :: rest =>
    match f prev (c :: rest) with
    | some r => some r
    | none => scanWithPrev f (some c) rest

def scanStr {α : Type} (f : Option Char → Chars → Option α) (s : Chars) : Option α :=
  scanWithPrev f none s

/-- `(?:am|pm|AM|PM)` — the exact four alternatives of the 12-hour pattern
(no `i` flag on that regex). -/
def ampm4 (s : Chars) : Option (Chars × Chars) :=
  match litEx "am".data s with
  | some r => some r
  | none => match litEx "pm".data s with
    | some r => some r
    | none => match litEx "AM".data s with
      | some r => some r
      | none => litEx "PM".data s

/-- `(?::\d{2})?` as prioritized alternatives (with-colon first, then empty). -/
def optColonMM (s : Chars) : List Chars :=
  (match s with
   | c :: r =>
     if c.toNat = 58 then
       match digits2 r with
       | some (_, _, r2) => [r2]
       | none => []
     else []
   | [] => []) ++ [s]

/-- Indicator 1: `/\d{1,2}(?::\d{2})?\s*(?:am|pm|AM|PM)/` (no boundaries). -/
def timeInd1At (_prev : Option Char) (s : Chars) : Option Unit :=
  firstSome (digits12 s) (fun (_, _, r1) =>
    firstSome (optColonMM r1) (fun r2 =>
      let (_, r3) := spanSpaces r2
      (ampm4 r3).map (fun _ => ())))

/-- Hour alternatives of `(?:[01]?\d|2[0-3])`, in regex priority order. -/
def hour24Alts (s : Chars) : List Chars :=
  (match s with
   | a :: b :: r =>
     (if (a.toNat = 48 || a.toNat = 49) && isDigitC b then [r] else []) ++
     (if isDigitC a then [b :: r] else []) ++
     (if a.toNat = 50 && (48 ≤ b.toNat && b.toNat ≤ 51) then [r] else [])
   | [a] => if isDigitC a then [[]] else []
   | [] => [])

/-- Indicator 2: `/\b(?:[01]?\d|2[0-3]):[0-5]\d\b/`. -/
def timeInd2At (prev : Option Char) (s : Chars) : Option Unit :=
  if bdryBeforeWord prev then
    firstSome (hour24Alts s) (fun r1 =>
      match r1 with
      | c :: d1 :: d2 :: r2 =>
        if c.toNat = 58 && (48 ≤ d1.toNat && d1.toNat ≤ 53) && isDigitC d2
            && bdryAfterWord r2 then
          some ()
        else none
      | _ => none)
  else none

/-- `(?:[01]\d|2[0-3])` — the military-time hour (exactly two digits). -/
def milHour (s : Chars) : Option Chars :=
  match s with
  | a :: b :: r =>
    if (a.toNat = 48 || a.toNat = 49) && isDigitC b then some r
    else if a.toNat = 50 && (48 ≤ b.toNat && b.toNat ≤ 51) then some r
    else none
  | _ => none

/-- The word alternatives of the military-time suffix, in regex order:
`hours?|hrs?|ist|est|pst|cst|utc|gmt` (case-insensitive), each followed by
`\b`. -/
def milWordSuffix (s : Chars) : Option Unit :=
  firstSome ["hours", "hour", "hrs", "hr", "ist", "est", "pst", "cst", "utc", "gmt"]
    (fun w =>
      (litCI w.data s).bind (fun (_, r) =>
        if bdryAfterWord r then some () else none))

/-- The offset alternative of the military-time suffix:
`[+-]\d{1,2}(?::\d{2})?` followed by `\b`. -/
def milOffsetSuffix (s : Chars) : Option Unit :=
  match s with
  | c :: r =>
    if c.toNat = 43 || c.toNat = 45 then
      firstSome (digits12 r) (fun (_, _, r1) =>
        firstSome (optColonMM r1) (fun r2 =>
          if bdryAfterWord r2 then some () else none))
    else none
  | [] => none

/-- Indicator 3: 4-digit military time with optional timezone suffix,
`/\b(?:[01]\d|2[0-3])[0-5]\d(?:\s*(?:hours?|hrs?|ist|est|pst|cst|utc|gmt|[+-]\d{1,2}(?::\d{2})?))?\b/i`. -/
def timeInd3At (prev : Option Char) (s : Chars) : Option Unit :=
  if bdryBeforeWord prev then
    (milHour s).bind (fun r1 =>
      match r1 with
      | d1 :: d2 :: r2 =>
        if (48 ≤ d1.toNat && d1.toNat ≤ 53) && isDigitC d2 then
          let (_, r3) := spanSpaces r2
          match milWordSuffix r3 with
          | some _ => some ()
          | none => match milOffsetSuffix r3 with
            | some _ => some ()
            | none => if bdryAfterWord r2 then some () else none
        else none
      | _ => none)
  else none

/-- Indicator 4: `/\b(?:noon|midnight|evening|morning|afternoon)\b/i`. -/
def timeInd4At (prev : Option Char) (s : Chars) : Option Unit :=
  if bdryBeforeWord prev then
    firstSome ["noon", "midnight", "evening", "morning", "afternoon"] (fun w =>
      (litCI w.data s).bind (fun (_, r) =>
        if bdryAfterWord r then some () else none))
  else none

/-- Indicator 5: `/\bat\s+\d/` (case-sensitive). -/
def timeInd5At (prev : Option Char) (s : Chars) : Option Unit :=
  if bdryBeforeWord prev then
    (litEx "at".data s).bind (fun (_, r1) =>
      (spaces1 r1).bind (fun (_, r2) =>
        match r2 with
        | c :: _ => if isDigitC c then some () else none
        | [] => none))
  else none

/-- Indicator 6: `/\d+\s*o'?clock/i` (the apostrophe is optional). -/
def timeInd6At (_prev : Option Char) (s : Chars) : Option Unit :=
  match s with
  | c :: _ =>
    if isDigitC c then
      let r1 := s.dropWhile isDigitC
      let (_, r2) := spanSpaces r1
      (litCI "o".data r2).bind (fun (_, r3) =>
        let r4 := match r3 with
          | a :: r => if a.toNat = 39 then r else a :: r
          | [] => []
        (litCI "clock".data r4).map (fun _ => ()))
    else none
  | [] => none

/-- `hasTimeForScheduling`: some time indicator matches somewhere. -/
def hasTimeForScheduling (text : String) : Bool :=
  let s := text.data
  (scanStr timeInd1At s).isSome || (scanStr timeInd2At s).isSome ||
  (scanStr timeInd3At s).isSome || (scanStr timeInd4At s).isSome ||
  (scanStr timeInd5At s).isSome || (scanStr timeInd6At s).isSome

example : hasTimeForScheduling "meeting at 9am GMT-7" = true := by decide
example : hasTimeForScheduling "available from 15th to 20th at 10pm netherlands" = true := by
  decide
example : hasTimeForScheduling "hello world" = false := by decide
example : hasTimeForScheduling "see you on friday" = false := by decide
example : hasTimeForScheduling "lunch at noon" = true := by decide

/-! ## The timezone resolver `detectTimezone` -/

/-- A sign character: `+` gives `false` (positive), `-` gives `true`. -/
def signC (s : Chars) : Option (Bool × Chars) :=
  match s with
  | c :: r =>
    if c.toNat = 43 then some (false, r)
    else if c.toNat = 45 then some (true, r)
    else none
  | [] => none

/-- `utc|gmt` on the lowercased text. -/
def utcOrGmt (s : Chars) : Option Chars :=
  match litEx "utc".data s with
  | some (_, r) => some r
  | none => (litEx "gmt".data s).map (fun (_, r) => r)

/-- Offset pattern 1, `\b(utc|gmt)\s+(\d{1,2}):(\d{2})\b`. -/
def off1At (prev : Option Char) (s : Chars) : Option (Bool × Nat × Nat) :=
  if bdryBeforeWord prev then
    (utcOrGmt s).bind (fun r0 =>
      (spaces1 r0).bind (fun (_, r1) =>
        firstSome (digits12 r1) (fun (h, _, r2) =>
          match r2 with
          | c :: r3 =>
            if c.toNat = 58 then
              (digits2 r3).bind (fun (m, _, r4) =>
                if bdryAfterWord r4 then some (false, h, m) else none)
            else none
          | [] => none)))
  else none

/-- Offset pattern 2, `\b(utc|gmt)\s+(\d{1,2})(?!\d)\b` — after the digits,
`(?!\d)\b` amounts to a word boundary. -/
def off2At (prev : Option Char) (s : Chars) : Option (Bool × Nat × Nat) :=
  if bdryBeforeWord prev then
    (utcOrGmt s).bind (fun r0 =>
      (spaces1 r0).bind (fun (_, r1) =>
        firstSome (digits12 r1) (fun (h, _, r2) =>
          if bdryAfterWord r2 then some (false, h, 0) else none)))
  else none

/-- Offset patterns 3/6, `\b(utc|gmt)\s+([+-])\s*(\d{1,2}):(\d{2})\b`,
parameterized by the word. -/
def off36At (word : String) (prev : Option Char) (s : Chars) : Option (Bool × Nat × Nat) :=
  if bdryBeforeWord prev then
    (litEx word.data s).bind (fun (_, r0) =>
      (spaces1 r0).bind (fun (_, r1) =>
        (signC r1).bind (fun (neg, r2) =>
          let (_, r3) := spanSpaces r2
          firstSome (digits12 r3) (fun (h, _, r4) =>
            match r4 with
            | c :: r5 =>
              if c.toNat = 58 then
                (digits2 r5).bind (fun (m, _, r6) =>
                  if bdryAfterWord r6 then some (neg, h, m) else none)
              else none
            | [] => none))))
  else none

/-- Offset patterns 4/7, `\b(utc|gmt)\s+([+-])\s*(\d{1,2})(?!\d)\b`. -/
def off47At (word : String) (prev : Option Char) (s : Chars) : Option (Bool × Nat × Nat) :=
  if bdryBeforeWord prev then
    (litEx word.data s).bind (fun (_, r0) =>
      (spaces1 r0).bind (fun (_, r1) =>
        (signC r1).bind (fun (neg, r2) =>
          let (_, r3) := spanSpaces r2
          firstSome (digits12 r3) (fun (h, _, r4) =>
            if bdryAfterWord r4 then some (neg, h, 0) else none))))
  else none

/-- `(?::?(\d{2}))?` — prioritized alternatives: colon+minutes, bare minutes,
absent; yields (minutes, rest). -/
def optMaybeColonMM (s : Chars) : List (Nat × Chars) :=
  (match s with
   | c :: r =>
     if c.toNat = 58 then
       match digits2 r with
       | some (m, _, r2) => [(m, r2)]
       | none => []
     else []
   | [] => []) ++
  (match digits2 s with
   | some (m, _, r2) => [(m, r2)]
   | none => []) ++
  [(0, s)]

/-- Offset patterns 5/8, `\b(utc|gmt)\s*([+-])\s*(\d{1,2})(?::?(\d{2}))?\b`. -/
def off58At (word : String) (prev : Option Char) (s : Chars) : Option (Bool × Nat × Nat) :=
  if bdryBeforeWord prev then
    (litEx word.data s).bind (fun (_, r0) =>
      let (_, r1) := spanSpaces r0
      (signC r1).bind (fun (neg, r2) =>
        let (_, r3) := spanSpaces r2
        firstSome (digits12 r3) (fun (h, _, r4) =>
          firstSome (optMaybeColonMM r4) (fun (m, r5) =>
            if bdryAfterWord r5 then some (neg, h, m) else none))))
  else none

/-- Offset pattern 9, `\b([+-])(\d{1,2})(?::?(\d{2}))\b` — the minutes group
is mandatory; `\b` before a sign demands a word character on its left. -/
def off9At (prev : Option Char) (s : Chars) : Option (Bool × Nat × Nat) :=
  if bdryBeforeNonword prev then
    (signC s).bind (fun (neg, r1) =>
      firstSome (digits12 r1) (fun (h, _, r2) =>
        firstSome
          ((match r2 with
            | c :: r3 =>
              if c.toNat = 58 then
                match digits2 r3 with
                | some (m, _, r4) => [(m, r4)]
                | none => []
              else []
            | [] => []) ++
           (match digits2 r2 with
            | some (m, _, r4) => [(m, r4)]
            | none => []))
          (fun (m, r4) => if bdryAfterWord r4 then some (neg, h, m) else none)))
  else none

/-- Offset pattern 10, `\b([+-])(\d{1,2})\b`. -/
def off10At (prev : Option Char) (s : Chars) : Option (Bool × Nat × Nat) :=
  if bdryBeforeNonword prev then
    (signC s).bind (fun (neg, r1) =>
      firstSome (digits12 r1) (fun (h, _, r2) =>
        if bdryAfterWord r2 then some (neg, h, 0) else none))
  else none

/-- The validation and conversion of a matched offset: reject `hours > 14`,
`hours = 14` with positive minutes, and `hours > 12` with a negative sign;
otherwise `sign * (hours*60 + minutes)`. -/
def validOffset (r : Bool × Nat × Nat) : Option Int :=
  let (neg, h, m) := r
  if h > 14 || (h = 14 && m > 0) then none
  else if h > 12 && neg then none
  else some (if neg then -(h * 60 + m : Int) else (h * 60 + m : Int))

/-- The leftmost match of each offset pattern over the lowercased text, in
the source's order. -/
def offsetPatternResults (lower : Chars) : List (Option (Bool × Nat × Nat)) :=
  [scanStr off1At lower, scanStr off2At lower,
   scanStr (off36At "utc") lower, scanStr (off47At "utc") lower,
   scanStr (off58At "utc") lower,
   scanStr (off36At "gmt") lower, scanStr (off47At "gmt") lower,
   scanStr (off58At "gmt") lower,
   scanStr off9At lower, scanStr off10At lower]

/-- Walk the pattern results in order: a match that fails validation
`continue`s to the next pattern. -/
def detectOffsetGo : List (Option (Bool × Nat × Nat)) → Option Int
  | [] => none
  | none :: rest => detectOffsetGo rest
  | some r :: rest =>
    match validOffset r with
    | some v => some v
    | none => detectOffsetGo rest

/-- The offset phase of `detectTimezone`. -/
def detectOffset (lower : Chars) : Option Int :=
  detectOffsetGo (offsetPatternResults lower)

/-- Whole-word containment `\b<key>\b` (case-insensitive) of a lookup-table
alias in the lowercased text. -/
def wholeWordCI (key : Chars) (lower : Chars) : Bool :=
  (scanStr (fun prev s =>
    if bdryBeforeWord prev then
      (litEx key s).bind (fun (_, r) =>
        if bdryAfterWord r then some () else none)
    else none) lower).isSome

/-- `detectTimezone` result: the source encodes a manual offset as the string
`"UTC_OFFSET_<minutes>"`, a named zone as the mapped identifier, and no
timezone as `null`; here the three shapes are an explicit sum. -/
inductive TzResult
  | manualOffset (minutes : Int)
  | namedZone (zone : String)
  | noTz
deriving DecidableEq, Repr

/-- `detectTimezone`: offset phase first (ordered patterns with validation),
then the first lookup-table alias contained whole-word, else none.  The
lookup table `timezoneMap.json` is not part of the sources, so it is a
parameter. -/
def detectTimezone (tzMap : List (String × String)) (text : String) : TzResult :=
  let lower := (lowerStr text).data
  match detectOffset lower with
  | some v => TzResult.manualOffset v
  | none =>
    match tzMap.find? (fun kv => wholeWordCI kv.1.data lower) with
    | some kv => TzResult.namedZone kv.2
    | none => TzResult.noTz

example : detectOffset (lowerStr "UTC+15").data = none := by decide
example : detectOffset (lowerStr "UTC-13").data = none := by decide
example : detectOffset (lowerStr "UTC+14").data = some 840 := by decide
example : detectOffset (lowerStr "UTC-12").data = some (-720) := by decide
example : detectOffset (lowerStr "meeting at 9am GMT-7").data = some (-420) := by decide
example : detectOffset (lowerStr "call at 5pm UTC +08:00").data = some 480 := by decide
example : detectOffset (lowerStr "meeting tomorrow 3pm UTC 5:30").data = some 330 := by decide
example : detectTimezone [("netherlands", "Europe/Amsterdam")]
    "available from 15th to 20th at 10pm netherlands"
    = TzResult.namedZone "Europe/Amsterdam" := by decide

/-! ## The future policy `adjustToFuture` -/

/-- JS `String.includes` (substring containment). -/
def includesSub (needle : Chars) : Chars → Bool
  | [] => needle.isEmpty
  | c :: rest => (litEx needle (c :: rest)).isSome || includesSub needle rest

/-- `dayOfWeekPattern = /\b(monday|tuesday|wednesday|thursday|friday|saturday|sunday)\b/i`
tested on the lowercased text. -/
def hasWeekdayWord (lower : Chars) : Bool :=
  (scanStr (fun prev s =>
    if bdryBeforeWord prev then
      firstSome ["monday", "tuesday", "wednesday", "thursday", "friday", "saturday", "sunday"]
        (fun w =>
          (litEx w.data s).bind (fun (_, r) =>
            if bdryAfterWord r then some () else none))
    else none) lower).isSome

/-- `timeOnlyPattern = /^\s*\d{1,2}(?::\d{2})?\s*(?:am|pm)/i` tested on
`lowerText.trim()`. -/
def isBareTimeText (lower : Chars) : Bool :=
  let t := trimChars lower
  let (_, r1) := spanSpaces t
  (firstSome (digits12 r1) (fun (_, _, r2) =>
    firstSome (optColonMM r2) (fun r3 =>
      let (_, r4) := spanSpaces r3
      (ampmCI r4).map (fun _ => ())))).isSome

/-- `adjustToFuture(jsDate, originalText, isEndDate, startDate)`; `now` is the
`new Date()` sampled on entry.  Mirrors the source branch for branch:
end-of-range handling first (only when a start date was passed), then the
`tomorrow`/`today` keywords, then the past-instant cascade (weekday → +1
week, bare time → today-or-tomorrow at that time, default → +1 day). -/
def adjustToFuture (jsDate : Int) (originalText : String) (isEndDate : Bool)
    (startDate : Option Int) (now : Int) : Int :=
  match isEndDate, startDate with
  | true, some st =>
    if jsDate ≤ st then jsDate + oneDayMs
    else if jsDate < now then jsDate + oneDayMs
    else jsDate
  | _, _ =>
    let lower := (lowerStr originalText).data
    if includesSub "tomorrow".data lower then
      dayFloorMs now + oneDayMs + todSecMs jsDate
    else if includesSub "today".data lower then
      let today0 := dayFloorMs now + todSecMs jsDate
      if today0 ≤ now then today0 + oneDayMs else today0
    else if jsDate ≤ now then
      if hasWeekdayWord lower then jsDate + oneWeekMs
      else if isBareTimeText lower then
        let todayAtTime := dayFloorMs now + todSecMs jsDate
        if now < todayAtTime then todayAtTime else todayAtTime + oneDayMs
      else jsDate + oneDayMs
    else jsDate

/-! ## Luxon as an oracle, and the two series expanders -/

/-- Outcome of a Luxon `DateTime.fromObject({...}, { zone })` construction:
a valid `DateTime` (its epoch value in ms), an invalid one, or a thrown
exception. -/
inductive LuxonOutcome
  | valid (ms : Int)
  | invalid
  | thrown
deriving DecidableEq, Repr

/-- The Luxon library as an oracle: zone name and the object fields
(year, month 1..12, day, hour, minute, second). -/
def ZoneOracle : Type := String → Int → Int → Int → Int → Int → Int → LuxonOutcome

/-- A fixed-offset interpretation of every named zone: the naive fields are
reinterpreted as zone-local wall time, `off` minutes ahead of UTC, so the
epoch value is the naive reading minus the offset. -/
def fixedOffsetLuxon (off : Int) : ZoneOracle :=
  fun _ y m d h mi s => LuxonOutcome.valid (mkDateMs y (m - 1) d h mi s - off * 60000)

/-- An oracle whose every construction yields the given (non-valid) outcome. -/
def constLuxon (o : LuxonOutcome) : ZoneOracle := fun _ _ _ _ _ _ _ => o

/-- `'pm' && hour !== 12 → hour+12; 'am' && hour === 12 → 0; else hour`. -/
def to24 (h : Nat) (isPM : Bool) : Int :=
  if isPM && h ≠ 12 then (h : Int) + 12
  else if !isPM && h = 12 then 0
  else (h : Int)

/-- `dayMap` in source order. -/
def weekdayNames : List (String × Int) :=
  [("monday", 1), ("tuesday", 2), ("wednesday", 3), ("thursday", 4),
   ("friday", 5), ("saturday", 6), ("sunday", 0)]

/-- `Object.keys(dayMap)[Object.values(dayMap).indexOf(dayNum)]`. -/
def dayNumName (n : Int) : String :=
  ((weekdayNames.find? (fun p => p.2 = n)).map (fun p => p.1)).getD ""

/-- A weekday word of the `weeklyPattern` alternation (case-insensitive),
yielding its `dayMap` number. -/
def weekdayWordAt (s : Chars) : Option (Int × Chars) :=
  firstSome weekdayNames (fun (w, n) =>
    (litCI w.data s).map (fun (_, r) => (n, r)))

/-- The `.*?to\s+(weekday)` tail of the weekly pattern: lazy middle, so the
earliest `to` followed by whitespace and a weekday wins.  (`.` does not match
a newline; the inputs considered are single-line.) -/
def lazyToWeekday : Chars → Option Int
  | [] => none
  | c :: rest =>
    match (litCI "to".data (c :: rest)).bind (fun (_, r1) =>
      (spaces1 r1).bind (fun (_, r2) => weekdayWordAt r2)) with
    | some (n2, _) => some n2
    | none => lazyToWeekday rest

/-- `weeklyPattern = /\b(monday|…|sunday)\s+.*?to\s+(monday|…|sunday)/i`:
the start/end `dayMap` numbers of the leftmost match. -/
def weeklyMatch (s : Chars) : Option (Int × Int) :=
  scanStr (fun prev t =>
    if bdryBeforeWord prev then
      (weekdayWordAt t).bind (fun (n1, r1) =>
        (spaces1 r1).bind (fun (_, r2) =>
          (lazyToWeekday r2).map (fun n2 => (n1, n2))))
    else none) s

/-- `(?::(\d{2}))?` with the captured value (`parseInt(undefined) || 0 = 0`
when absent), prioritized alternatives. -/
def optColonMMVal (s : Chars) : List (Nat × Chars) :=
  (match s with
   | c :: r =>
     if c.toNat = 58 then
       match digits2 r with
       | some (m, _, r2) => [(m, r2)]
       | none => []
     else []
   | [] => []) ++ [(0, s)]

/-- `timeMatch = /(\d{1,2})(?::(\d{2}))?\s*(am|pm)/i`: hour, minute and
meridiem of the leftmost match. -/
def timeMatch12 (s : Chars) : Option (Nat × Nat × Bool) :=
  scanStr (fun _ t =>
    firstSome (digits12 t) (fun (h, _, r1) =>
      firstSome (optColonMMVal r1) (fun (mi, r2) =>
        let (_, r3) := spanSpaces r2
        match litCI "am".data r3 with
        | some _ => some (h, mi, false)
        | none => (litCI "pm".data r3).map (fun _ => (h, mi, true))))) s

/-- The day walk of `parseMultipleDays`: push the current day; stop on the
end day; advance modulo 7; the `days.length > 7` check guards the loop. -/
def walkGo (endD : Int) : Int → List Int → Nat → List Int
  | _, acc, 0 => acc.reverse
  | cur, acc, n + 1 =>
    let acc2 := cur :: acc
    if cur = endD then acc2.reverse
    else if 7 < acc2.length then acc2.reverse
    else walkGo endD ((cur + 1) % 7) acc2 n

def walkDays (startD endD : Int) : List Int := walkGo endD startD [] 9

example : walkDays 1 4 = [1, 2, 3, 4] := by decide
example : walkDays 5 1 = [5, 6, 0, 1] := by decide
example : walkDays 3 3 = [3] := by decide

/-- One produced series entry (weekday expander): the weekday label, the
final epoch value, whether/which timezone info was attached (`none` models a
`null` `timezoneInfo`, `some true` a manual offset, `some false` a named
zone), and `Math.floor(ms/1000)`. -/
structure DayEntry where
  label : String
  jsDate : Int
  tzApplied : Option Bool
  unixTimestamp : Int
deriving DecidableEq, Repr

/-- `parseMultipleDays(text, detectedTimezone)`; `now` is the `new Date()`
sampled after the regex checks, `luxon` the zone-construction oracle. -/
def parseMultipleDays (text : String) (tz : TzResult) (luxon : ZoneOracle)
    (now : Int) : Option (List DayEntry) :=
  match weeklyMatch text.data with
  | none => none
  | some (startDayNum, endDayNum) =>
    match timeMatch12 text.data with
    | none => none
    | some (h, mi, isPM) =>
      let hour24 : Int := to24 h isPM
      let minute : Int := mi
      let days := walkDays startDayNum endDayNum
      let currentWeekday := jsGetDay now
      some (days.map (fun dayNum =>
        let du0 := dayNum - currentWeekday
        let daysUntil := if du0 ≤ 0 then du0 + 7 else du0
        let targetDate := setHMS (now + daysUntil * oneDayMs) hour24 minute 0
        match tz with
        | TzResult.manualOffset off =>
          let finalDate := targetDate - off * 60000
          { label := dayNumName dayNum, jsDate := finalDate, tzApplied := some true,
            unixTimestamp := finalDate / 1000 }
        | TzResult.namedZone z =>
          match luxon z (jsGetFullYear targetDate) (jsGetMonth targetDate + 1)
              (jsGetDate targetDate) hour24 minute 0 with
          | LuxonOutcome.valid ms =>
            { label := dayNumName dayNum, jsDate := ms, tzApplied := some false,
              unixTimestamp := ms / 1000 }
          | _ =>
            { label := dayNumName dayNum, jsDate := targetDate, tzApplied := none,
              unixTimestamp := targetDate / 1000 }
        | TzResult.noTz =>
          { label := dayNumName dayNum, jsDate := targetDate, tzApplied := none,
            unixTimestamp := targetDate / 1000 }))

/-- `(?:st|nd|rd|th)?` as prioritized alternatives. -/
def optOrdSuf (s : Chars) : List Chars :=
  (match ordSufCI s with
   | some (_, r) => [r]
   | none => []) ++ [s]

/-- `dateRangePattern =
/(\d{1,2})(?:st|nd|rd|th)?\s+to\s+(\d{1,2})(?:st|nd|rd|th)?\s+at\s+(\d{1,2})(?::(\d{2}))?\s*(am|pm)/i`,
at one position. -/
def dateRangeMatchAt (_prev : Option Char) (s : Chars) :
    Option (Nat × Nat × Nat × Nat × Bool) :=
  firstSome (digits12 s) (fun (d1, _, r1) =>
    firstSome (optOrdSuf r1) (fun r2 =>
      (spaces1 r2).bind (fun (_, r3) =>
        (litCI "to".data r3).bind (fun (_, r4) =>
          (spaces1 r4).bind (fun (_, r5) =>
            firstSome (digits12 r5) (fun (d2, _, r6) =>
              firstSome (optOrdSuf r6) (fun r7 =>
                (spaces1 r7).bind (fun (_, r8) =>
                  (litCI "at".data r8).bind (fun (_, r9) =>
                    (spaces1 r9).bind (fun (_, r10) =>
                      firstSome (digits12 r10) (fun (h, _, r11) =>
                        firstSome (optColonMMVal r11) (fun (mi, r12) =>
                          let (_, r13) := spanSpaces r12
                          match litCI "am".data r13 with
                          | some _ => some (d1, d2, h, mi, false)
                          | none =>
                            (litCI "pm".data r13).map
                              (fun _ => (d1, d2, h, mi, true))))))))))))))

/-- `for (let day = startDay; day <= endDay; day++)` — empty when
`startDay > endDay`. -/
def dayListFromTo (s e : Int) : List Int :=
  (List.range (e + 1 - s).toNat).map (fun i => s + (i : Int))

example : dayListFromTo 15 20 = [15, 16, 17, 18, 19, 20] := by decide
example : dayListFromTo 20 15 = [] := by decide

/-- One produced series entry (date-range expander). -/
structure RangeEntry where
  day : Int
  jsDate : Int
  tzApplied : Option Bool
  unixTimestamp : Int
deriving DecidableEq, Repr

/-- `parseDateRange(text, detectedTimezone)`; `now` is the `new Date()`
sampled after the regex match, and the same instant is used for the
`adjustToFuture` calls (the source re-samples inside `adjustToFuture`; the
clocked pipeline model below separates those reads). -/
def parseDateRange (text : String) (tz : TzResult) (luxon : ZoneOracle)
    (now : Int) : Option (List RangeEntry) :=
  match scanStr dateRangeMatchAt text.data with
  | none => none
  | some (d1, d2, h, mi, isPM) =>
    let hour24 : Int := to24 h isPM
    let minute : Int := mi
    let currentMonth := jsGetMonth now
    let currentYear := jsGetFullYear now
    some ((dayListFromTo d1 d2).map (fun day =>
      let target0 := mkDateMs currentYear currentMonth day hour24 minute 0
      let targetDate := adjustToFuture target0 text false none now
      match tz with
      | TzResult.manualOffset off =>
        let finalDate := targetDate - off * 60000
        { day := day, jsDate := finalDate, tzApplied := some true,
          unixTimestamp := finalDate / 1000 }
      | TzResult.namedZone z =>
        match luxon z (jsGetFullYear targetDate) (jsGetMonth targetDate + 1)
            (jsGetDate targetDate) hour24 minute 0 with
        | LuxonOutcome.valid ms =>
          { day := day, jsDate := ms, tzApplied := some false,
            unixTimestamp := ms / 1000 }
        | _ =>
          { day := day, jsDate := targetDate, tzApplied := none,
            unixTimestamp := targetDate / 1000 }
      | TzResult.noTz =>
        { day := day, jsDate := targetDate, tzApplied := none,
          unixTimestamp := targetDate / 1000 }))

example : weeklyMatch "available on monday 10pm to thursday 10pm est".data
    = some (1, 4) := by decide
example : timeMatch12 "available on monday 10pm to thursday 10pm est".data
    = some (10, 0, true) := by decide
example : scanStr dateRangeMatchAt "available from 15th to 20th at 10pm netherlands".data
    = some (15, 20, 10, 0, true) := by decide
example : scanStr dateRangeMatchAt "available from 20th to 15th at 10pm".data
    = some (20, 15, 10, 0, true) := by decide
example : weeklyMatch "available from 15th to 20th at 10pm netherlands".data = none := by
  decide

/-! ## The generic-parser path `processChronoDate` -/

/-- One chrono-node parsed component: the `get('…')` accessors (absent
fields are `none`) and the `date()` naive instant. -/
structure ChronoComponent where
  year : Option Int
  month : Option Int
  day : Option Int
  hour : Option Int
  minute : Option Int
  second : Option Int
  dateMs : Int
deriving DecidableEq, Repr

/-- JS `x || d` on a possibly-absent number: `undefined` and `0` are falsy. -/
def jsOrElse (x : Option Int) (d : Int) : Int :=
  match x with
  | some v => if v = 0 then d else v
  | none => d

/-- Result of `processChronoDate`. -/
structure ProcOut where
  jsDate : Int
  tzApplied : Option Bool
  unixTimestamp : Int
  wasAdjustedToFuture : Bool
deriving DecidableEq, Repr

/-- `processChronoDate(chronoComponent, timezone, isEndDate, startDate,
originalText)`: the timezone is applied to the naive extracted components
first (falling back to `chronoComponent.date()` when the spec is absent or
the construction fails/returns invalid), then `adjustToFuture` runs on the
timezone-adjusted instant.  The `new Date()` fallbacks for absent fields are
modelled with the same `now` (the source constructs fresh dates there). -/
def processChronoDate (comp : ChronoComponent) (tz : TzResult) (luxon : ZoneOracle)
    (isEndDate : Bool) (startDate : Option Int) (originalText : String)
    (now : Int) : ProcOut :=
  let year := jsOrElse comp.year (jsGetFullYear now)
  let month := jsOrElse comp.month (jsGetMonth now + 1)
  let day := jsOrElse comp.day (jsGetDate now)
  let hour := jsOrElse comp.hour 0
  let minute := jsOrElse comp.minute 0
  let second := jsOrElse comp.second 0
  let initialDate := comp.dateMs
  let adj : Int × Option Bool :=
    match tz with
    | TzResult.manualOffset off =>
      match luxon "UTC" year month day hour minute second with
      | LuxonOutcome.valid ms => (ms - off * 60000, some true)
      | _ => (initialDate, none)
    | TzResult.namedZone z =>
      match luxon z year month day hour minute second with
      | LuxonOutcome.valid ms => (ms, some false)
      | _ => (initialDate, none)
    | TzResult.noTz => (initialDate, none)
  let timezoneAdjustedDate := adj.1
  let finalDate := adjustToFuture timezoneAdjustedDate originalText isEndDate startDate now
  { jsDate := finalDate, tzApplied := adj.2, unixTimestamp := finalDate / 1000,
    wasAdjustedToFuture := decide (finalDate ≠ timezoneAdjustedDate) }

/-! ## The `/parse` handler -/

/-- A chrono-node parse result: a start component and an optional end
component. -/
structure ChronoResult where
  start : ChronoComponent
  stop : Option ChronoComponent
deriving Repr

/-- The pipeline steps the handler can perform, for stating that the
relevance filter short-circuits everything else. -/
inductive Step
  | relevance
  | normalize
  | tzDetect
  | weekdayExpand
  | dateRangeExpand
  | chronoParse
deriving DecidableEq, Repr

/-- The handler's JSON responses, by shape. -/
inductive Response
  | missingParam
  | notRelevant (originalText : String)
  | multiTimes (isRange : Bool) (tz : TzResult) (firstTzApplied : Option Bool)
      (dayTimes : List DayEntry) (rangeTimes : List RangeEntry) (firstUnix : Int)
  | noDates (tz : TzResult)
  | single (tz : TzResult) (startOut : ProcOut) (endOut : Option ProcOut)
      (duration : Option Int)
deriving Repr

/-- `app.get('/parse')` (first document of `part_000`): missing/empty `text`
(JS falsy) → error JSON; relevance gate; preprocessing; timezone detection;
weekday expander, then date-range expander (each dereferences `result[0]` —
an empty array is truthy in JS, so `head?` failing models the thrown
`TypeError` that the error middleware turns into a 500, `Except.error`);
otherwise the chrono path.  Returns the response (or the 500 marker)
together with the list of performed steps. -/
def parseHandler (tzMap : List (String × String)) (luxon : ZoneOracle)
    (chronoParse : String → List ChronoResult) (now : Int)
    (textParam : Option String) : Except Unit Response × List Step :=
  match textParam with
  | none => (Except.ok Response.missingParam, [])
  | some originalText =>
    if originalText = "" then (Except.ok Response.missingParam, []) else
    if !hasTimeForScheduling originalText then
      (Except.ok (Response.notRelevant originalText), [Step.relevance])
    else
      let text := preprocessText now originalText
      let tz := detectTimezone tzMap text
      let steps0 := [Step.relevance, Step.normalize, Step.tzDetect]
      match parseMultipleDays text tz luxon now with
      | some l =>
        match l.head? with
        | some e0 =>
          (Except.ok (Response.multiTimes false tz e0.tzApplied l [] e0.unixTimestamp),
           steps0 ++ [Step.weekdayExpand])
        | none => (Except.error (), steps0 ++ [Step.weekdayExpand])
      | none =>
        match parseDateRange text tz luxon now with
        | some l =>
          match l.head? with
          | some e0 =>
            (Except.ok (Response.multiTimes true tz e0.tzApplied [] l e0.unixTimestamp),
             steps0 ++ [Step.weekdayExpand, Step.dateRangeExpand])
          | none => (Except.error (), steps0 ++ [Step.weekdayExpand, Step.dateRangeExpand])
        | none =>
          let steps1 := steps0 ++ [Step.weekdayExpand, Step.dateRangeExpand, Step.chronoParse]
          match chronoParse text with
          | [] => (Except.ok (Response.noDates tz), steps1)
          | result :: _ =>
            let startResult := processChronoDate result.start tz luxon false none
              originalText now
            match result.stop with
            | some stopComp =>
              let endResult := processChronoDate stopComp tz luxon true
                (some startResult.jsDate) originalText now
              (Except.ok (Response.single tz startResult (some endResult)
                (some (endResult.jsDate - startResult.jsDate))), steps1)
            | none =>
              (Except.ok (Response.single tz startResult none none), steps1)

/-- Projection: the response of a non-500 outcome. -/
def okResponse : Except Unit Response → Option Response
  | Except.ok r => some r
  | Except.error _ => none

/-- Projection: is the response an `is_multiple_times` one? -/
def respIsMultiTimes : Response → Bool
  | Response.multiTimes _ _ _ _ _ _ => true
  | _ => false

/-- Projection: the weekday-series entries of a `multiTimes` response. -/
def respDayTimes : Response → List DayEntry
  | Response.multiTimes _ _ _ l _ _ => l
  | _ => []

/-! ## The clocked pipeline (clock reads made explicit)

Each `new Date()` in the source is one read of a clock stream.  Reads, in
execution order on the expander paths: `preprocessText` (1), then
`parseMultipleDays` reads once only if its regexes matched, then
`parseDateRange` reads once after its regex matched and `adjustToFuture`
reads once per generated day.  (`detectTimezone` never reads the clock.) -/

def parseDateRangeClocked (text : String) (tz : TzResult) (luxon : ZoneOracle)
    (clock : Nat → Int) (i : Nat) : Option (List RangeEntry) × Nat :=
  match scanStr dateRangeMatchAt text.data with
  | none => (none, i)
  | some (d1, d2, h, mi, isPM) =>
    let hour24 : Int := to24 h isPM
    let minute : Int := mi
    let now := clock i
    let currentMonth := jsGetMonth now
    let currentYear := jsGetFullYear now
    let days := dayListFromTo d1 d2
    let entries := (days.zip (List.range days.length)).map (fun (day, k) =>
      let target0 := mkDateMs currentYear currentMonth day hour24 minute 0
      let targetDate := adjustToFuture target0 text false none (clock (i + 1 + k))
      match tz with
      | TzResult.manualOffset off =>
        let finalDate := targetDate - off * 60000
        { day := day, jsDate := finalDate, tzApplied := some true,
          unixTimestamp := finalDate / 1000 }
      | TzResult.namedZone z =>
        match luxon z (jsGetFullYear targetDate) (jsGetMonth targetDate + 1)
            (jsGetDate targetDate) hour24 minute 0 with
        | LuxonOutcome.valid ms =>
          { day := day, jsDate := ms, tzApplied := some false,
            unixTimestamp := ms / 1000 }
        | _ =>
          { day := day, jsDate := targetDate, tzApplied := none,
            unixTimestamp := targetDate / 1000 }
      | TzResult.noTz =>
        { day := day, jsDate := targetDate, tzApplied := none,
          unixTimestamp := targetDate / 1000 })
    (some entries, i + 1 + days.length)

def parseMultipleDaysClocked (text : String) (tz : TzResult) (luxon : ZoneOracle)
    (clock : Nat → Int) (i : Nat) : Option (List DayEntry) × Nat :=
  match weeklyMatch text.data with
  | none => (none, i)
  | some _ =>
    match timeMatch12 text.data with
    | none => (none, i)
    | some _ => (parseMultipleDays text tz luxon (clock i), i + 1)

/-- The expander portion of the `/parse` pipeline against an explicit clock
stream: result of the matching expander (or `none` when the text falls
through to chrono) and the total number of clock reads performed. -/
def resolveExpandersClocked (tzMap : List (String × String)) (luxon : ZoneOracle)
    (text : String) (clock : Nat → Int) :
    (Option (List DayEntry) × Option (List RangeEntry)) × Nat :=
  let t := preprocessText (clock 0) text
  let tz := detectTimezone tzMap t
  match parseMultipleDaysClocked t tz luxon clock 1 with
  | (some l, i) => ((some l, none), i)
  | (none, i) =>
    match parseDateRangeClocked t tz luxon clock i with
    | (some l, j) => ((none, some l), j)
    | (none, j) => ((none, none), j)

/-! ## Correctness of the civil-calendar model

`daysFromCivil` inverts `civilFromDays` and the latter produces valid
calendar fields; the year-of-era formula is validated on year boundaries
(400 cases) and the month formula on all days-of-year (366 cases), the rest
is monotonicity and arithmetic. -/

def gDays (y : Nat) : Nat := 365 * y + y / 4 - y / 100

def yoeOf (a : Nat) : Nat := (a - a / 1460 + a / 36524 - a / 146096) / 365

theorem yoeOf_mono (a b : Nat) (h : a ≤ b) : yoeOf a ≤ yoeOf b := by
  apply Nat.div_le_div_right
  omega

set_option maxRecDepth 4000 in
theorem yoe_at_g : ∀ y : Nat, y < 400 →
    yoeOf (gDays y) = y ∧ yoeOf (gDays (y + 1) - 1) = y ∧ gDays (y + 1) - gDays y ≤ 366 := by
  decide

set_option maxRecDepth 4000 in
theorem doy_core : ∀ doy : Nat, doy ≤ 365 →
    ((153 * ((5 * doy + 2) / 153) + 2) / 5 ≤ doy ∧
     (let mp := (5 * doy + 2) / 153
      let d := doy - (153 * mp + 2) / 5 + 1
      let m := if mp < 10 then mp + 3 else mp - 9
      1 ≤ m ∧ m ≤ 12 ∧ 1 ≤ d ∧ d ≤ 31 ∧ mp ≤ 11 ∧
      (153 * (if 2 < m then m - 3 else m + 9) + 2) / 5 + d - 1 = doy)) := by
  decide

theorem yoe_bracket (a : Nat) (ha : a ≤ 146096) :
    yoeOf a ≤ 399 ∧ gDays (yoeOf a) ≤ a ∧ a - gDays (yoeOf a) ≤ 365 := by
  have h399 : yoeOf a ≤ 399 := by
    have hm := yoeOf_mono a 146096 ha
    have h2 : yoeOf 146096 = 399 := by decide
    omega
  have hlow : gDays (yoeOf a) ≤ a := by
    rcases Nat.eq_zero_or_pos (yoeOf a) with h | h
    · rw [h]
      exact Nat.zero_le a
    · by_contra hlt
      push_neg at hlt
      have hy : yoeOf a - 1 < 400 := by omega
      have hhigh := (yoe_at_g (yoeOf a - 1) hy).2.1
      have e : yoeOf a - 1 + 1 = yoeOf a := by omega
      rw [e] at hhigh
      have hmono := yoeOf_mono a (gDays (yoeOf a) - 1) (by omega)
      omega
  refine ⟨h399, hlow, ?_⟩
  by_cases htop : yoeOf a = 399
  · have h1 : gDays 399 = 145731 := by decide
    rw [htop]
    omega
  · have h2 : yoeOf a + 1 < 400 := by omega
    have hup : a < gDays (yoeOf a + 1) := by
      by_contra hge
      push_neg at hge
      have hlow2 := (yoe_at_g (yoeOf a + 1) h2).1
      have hmono := yoeOf_mono (gDays (yoeOf a + 1)) a hge
      omega
    have hstep := (yoe_at_g (yoeOf a) (by omega)).2.2
    omega

theorem yoe_bracket_int (doe : Int) (h0 : 0 ≤ doe) (h1 : doe ≤ 146096) :
    0 ≤ (doe - doe / 1460 + doe / 36524 - doe / 146096) / 365 ∧
    (doe - doe / 1460 + doe / 36524 - doe / 146096) / 365 ≤ 399 ∧
    365 * ((doe - doe / 1460 + doe / 36524 - doe / 146096) / 365) +
      ((doe - doe / 1460 + doe / 36524 - doe / 146096) / 365) / 4 -
      ((doe - doe / 1460 + doe / 36524 - doe / 146096) / 365) / 100 ≤ doe ∧
    doe - (365 * ((doe - doe / 1460 + doe / 36524 - doe / 146096) / 365) +
      ((doe - doe / 1460 + doe / 36524 - doe / 146096) / 365) / 4 -
      ((doe - doe / 1460 + doe / 36524 - doe / 146096) / 365) / 100) ≤ 365 := by
  obtain ⟨a, rfl⟩ := Int.eq_ofNat_of_zero_le h0
  have haLe : a ≤ 146096 := by exact_mod_cast h1
  have hbr := yoe_bracket a haLe
  unfold yoeOf gDays at hbr
  have s1 : a / 1460 ≤ a := Nat.div_le_self _ _
  have s2 : a / 146096 ≤ a - a / 1460 + a / 36524 := by omega
  have s3 : ((a : Int) - (a : Int) / 1460 + (a : Int) / 36524 - (a : Int) / 146096) / 365
      = (((a - a / 1460 + a / 36524 - a / 146096) / 365 : Nat) : Int) := by
    push_cast [s1, s2]
    ring_nf
  rw [s3]
  have g1 : ((a - a / 1460 + a / 36524 - a / 146096) / 365) / 100 ≤
      365 * ((a - a / 1460 + a / 36524 - a / 146096) / 365) +
      ((a - a / 1460 + a / 36524 - a / 146096) / 365) / 4 := by omega
  have s5 : (365 : Int) * (((a - a / 1460 + a / 36524 - a / 146096) / 365 : Nat) : Int) +
      (((a - a / 1460 + a / 36524 - a / 146096) / 365 : Nat) : Int) / 4 -
      (((a - a / 1460 + a / 36524 - a / 146096) / 365 : Nat) : Int) / 100
      = ((365 * ((a - a / 1460 + a / 36524 - a / 146096) / 365) +
          ((a - a / 1460 + a / 36524 - a / 146096) / 365) / 4 -
          ((a - a / 1460 + a / 36524 - a / 146096) / 365) / 100 : Nat) : Int) := by
    push_cast [g1]
    ring_nf
  rw [s5]
  refine ⟨by positivity, by exact_mod_cast hbr.1, by exact_mod_cast hbr.2.1, ?_⟩
  rw [show ((a : Int) - ((365 * ((a - a / 1460 + a / 36524 - a / 146096) / 365) +
      ((a - a / 1460 + a / 36524 - a / 146096) / 365) / 4 -
      ((a - a / 1460 + a / 36524 - a / 146096) / 365) / 100 : Nat) : Int))
      = ((a - (365 * ((a - a / 1460 + a / 36524 - a / 146096) / 365) +
          ((a - a / 1460 + a / 36524 - a / 146096) / 365) / 4 -
          ((a - a / 1460 + a / 36524 - a / 146096) / 365) / 100) : Nat) : Int) from by
    push_cast [hbr.2.1]
    ring_nf]
  exact_mod_cast hbr.2.2

set_option maxRecDepth 4000 in
theorem doy_core_int : ∀ n : Nat, n ≤ 365 →
    (1 ≤ (if (5 * (n : Int) + 2) / 153 < 10 then (5 * (n : Int) + 2) / 153 + 3
          else (5 * (n : Int) + 2) / 153 - 9) ∧
     (if (5 * (n : Int) + 2) / 153 < 10 then (5 * (n : Int) + 2) / 153 + 3
          else (5 * (n : Int) + 2) / 153 - 9) ≤ 12 ∧
     1 ≤ (n : Int) - (153 * ((5 * (n : Int) + 2) / 153) + 2) / 5 + 1 ∧
     (n : Int) - (153 * ((5 * (n : Int) + 2) / 153) + 2) / 5 + 1 ≤ 31 ∧
     (153 * (if 2 < (if (5 * (n : Int) + 2) / 153 < 10 then (5 * (n : Int) + 2) / 153 + 3
                     else (5 * (n : Int) + 2) / 153 - 9)
             then (if (5 * (n : Int) + 2) / 153 < 10 then (5 * (n : Int) + 2) / 153 + 3
                   else (5 * (n : Int) + 2) / 153 - 9) - 3
             else (if (5 * (n : Int) + 2) / 153 < 10 then (5 * (n : Int) + 2) / 153 + 3
                   else (5 * (n : Int) + 2) / 153 - 9) + 9) + 2) / 5 +
       ((n : Int) - (153 * ((5 * (n : Int) + 2) / 153) + 2) / 5 + 1) - 1 = (n : Int)) := by
  decide

set_option maxHeartbeats 2000000 in
theorem civilFromDays_spec (z : Int) :
    daysFromCivil (civilFromDays z).1 (civilFromDays z).2.1 (civilFromDays z).2.2 = z ∧
    1 ≤ (civilFromDays z).2.1 ∧ (civilFromDays z).2.1 ≤ 12 ∧
    1 ≤ (civilFromDays z).2.2 ∧ (civilFromDays z).2.2 ≤ 31 := by
  have hm := Int.emod_def (z + 719468) 146097
  have hm0 : 0 ≤ (z + 719468) % 146097 := Int.emod_nonneg _ (by norm_num)
  have hm1 : (z + 719468) % 146097 < 146097 := Int.emod_lt_of_pos _ (by norm_num)
  have e0 : 0 ≤ z + 719468 - (z + 719468) / 146097 * 146097 := by omega
  have e1 : z + 719468 - (z + 719468) / 146097 * 146097 ≤ 146096 := by omega
  have hbr := yoe_bracket_int _ e0 e1
  simp only [civilFromDays, daysFromCivil]
  set era : Int := (z + 719468) / 146097 with hera
  set doe : Int := z + 719468 - era * 146097 with hdoe
  set yoe : Int := (doe - doe / 1460 + doe / 36524 - doe / 146096) / 365 with hyoe
  set doy : Int := doe - (365 * yoe + yoe / 4 - yoe / 100) with hdoy
  have hd0 : 0 ≤ doy := by omega
  have hd1 : doy ≤ 365 := by omega
  have hy0 : 0 ≤ yoe := hbr.1
  have hy399 : yoe ≤ 399 := hbr.2.1
  have hdiv1 : (yoe + era * 400) / 400 = era := by
    rw [Int.add_mul_ediv_right _ _ (by norm_num : (400 : Int) ≠ 0),
      Int.ediv_eq_zero_of_lt hy0 (by omega)]
    ring
  have hdiv2 : yoe + era * 400 - (yoe + era * 400) / 400 * 400 = yoe := by
    rw [hdiv1]
    ring
  have hdiv1b : (yoe + era * 400 + 1 - 1) / 400 = era := by
    rw [show yoe + era * 400 + 1 - 1 = yoe + era * 400 from by ring, hdiv1]
  have hcast : ((doy.toNat : Nat) : Int) = doy := Int.toNat_of_nonneg hd0
  have hnLe : doy.toNat ≤ 365 := by omega
  have hcore := doy_core_int doy.toNat hnLe
  rw [hcast] at hcore
  split_ifs at hcore ⊢ <;>
    (try rw [show yoe + era * 400 + 1 - 1 = yoe + era * 400 from by ring]) <;>
    (try rw [hdiv1]) <;>
    (try rw [show yoe + era * 400 - era * 400 = yoe from by ring]) <;> omega

theorem dayFloorMs_le (t : Int) : dayFloorMs t ≤ t := by
  have := Int.emod_nonneg t (by norm_num [oneDayMs] : oneDayMs ≠ 0)
  unfold dayFloorMs
  omega

theorem lt_dayFloorMs_add (t : Int) : t < dayFloorMs t + oneDayMs := by
  have := Int.emod_lt_of_pos t (by norm_num [oneDayMs] : 0 < oneDayMs)
  unfold dayFloorMs
  omega

theorem todSecMs_nonneg (t : Int) : 0 ≤ todSecMs t := by
  have h1 : t % oneDayMs % 1000 = t % 1000 :=
    Int.emod_emod_of_dvd t (by norm_num [oneDayMs])
  have h2 : 0 ≤ t % oneDayMs := Int.emod_nonneg t (by norm_num [oneDayMs])
  have h3 := Int.ediv_add_emod (t % oneDayMs) 1000
  have h4 : 0 ≤ t % oneDayMs / 1000 := Int.ediv_nonneg h2 (by norm_num)
  unfold todSecMs
  omega

theorem todSecMs_lt (t : Int) : todSecMs t < oneDayMs := by
  have h1 : t % oneDayMs % 1000 = t % 1000 :=
    Int.emod_emod_of_dvd t (by norm_num [oneDayMs])
  have h2 : 0 ≤ t % 1000 := Int.emod_nonneg t (by norm_num)
  have h5 := Int.emod_lt_of_pos t (by norm_num [oneDayMs] : 0 < oneDayMs)
  unfold todSecMs
  omega

theorem dayFloorMs_add_mul (t k : Int) :
    dayFloorMs (t + k * oneDayMs) = dayFloorMs t + k * oneDayMs := by
  have h : (t + k * oneDayMs) % oneDayMs = t % oneDayMs := Int.add_mul_emod_self
  unfold dayFloorMs oneDayMs at *
  omega

theorem emod_small_add (x v : Int) (h0 : 0 ≤ v) (h1 : v < oneDayMs) :
    (dayFloorMs x + v) % oneDayMs = v := by
  have h4 : dayFloorMs x = x / oneDayMs * oneDayMs := by
    have := Int.ediv_add_emod x oneDayMs
    unfold dayFloorMs oneDayMs at *
    omega
  rw [h4, show x / oneDayMs * oneDayMs + v = v + x / oneDayMs * oneDayMs from by ring,
    Int.add_mul_emod_self]
  exact Int.emod_eq_of_lt h0 h1

theorem dayFloorMs_add_small (x v : Int) (h0 : 0 ≤ v) (h1 : v < oneDayMs) :
    dayFloorMs (dayFloorMs x + v) = dayFloorMs x := by
  have h2 := emod_small_add x v h0 h1
  show dayFloorMs x + v - (dayFloorMs x + v) % oneDayMs = dayFloorMs x
  rw [h2]
  ring

theorem jsGetDay_bounds (t : Int) : 0 ≤ jsGetDay t ∧ jsGetDay t < 7 := by
  unfold jsGetDay
  exact ⟨Int.emod_nonneg _ (by norm_num), Int.emod_lt_of_pos _ (by norm_num)⟩

theorem epochDay_mul (t : Int) : epochDay t * oneDayMs = dayFloorMs t := by
  unfold epochDay dayFloorMs
  have h4 : t - t % oneDayMs = t / oneDayMs * oneDayMs := by
    have := Int.ediv_add_emod t oneDayMs
    unfold oneDayMs at *
    omega
  rw [h4, Int.mul_ediv_cancel _ (by norm_num [oneDayMs])]

/-- Rebuilding a `Date` from the civil fields of `t` (as the Luxon calls in
the source do) lands on the same calendar day: `new Date`-style construction
from `getFullYear/getMonth/getDate` of `t` plus a wall time. -/
theorem mkDateMs_fields (t h mi s : Int) :
    mkDateMs (jsGetFullYear t) (jsGetMonth t) (jsGetDate t) h mi s
      = dayFloorMs t + h * 3600000 + mi * 60000 + s * 1000 := by
  have hs := civilFromDays_spec (epochDay t)
  unfold mkDateMs jsGetFullYear jsGetMonth jsGetDate
  have hm1 : ((civilFromDays (epochDay t)).2.1 - 1) / 12 = 0 :=
    Int.ediv_eq_zero_of_lt (by omega) (by omega)
  have hm2 : ((civilFromDays (epochDay t)).2.1 - 1) % 12
      = (civilFromDays (epochDay t)).2.1 - 1 :=
    Int.emod_eq_of_lt (by omega) (by omega)
  rw [hm1, hm2]
  have he : (civilFromDays (epochDay t)).1 + 0 = (civilFromDays (epochDay t)).1 := by ring
  rw [he]
  have hd : (civilFromDays (epochDay t)).2.1 - 1 + 1 = (civilFromDays (epochDay t)).2.1 := by
    ring
  rw [hd]
  show daysFromCivil (civilFromDays (epochDay t)).1 (civilFromDays (epochDay t)).2.1
      (civilFromDays (epochDay t)).2.2 * oneDayMs + h * 3600000 + mi * 60000 + s * 1000
    = dayFloorMs t + h * 3600000 + mi * 60000 + s * 1000
  rw [hs.1, epochDay_mul]

/-! ## Claim theorems -/

/-- C5: `detectTimezone` offset validation — `UTC+15` and `UTC-13` yield no
manual offset (every matching pattern is rejected and the scan moves on),
`UTC+14` gives +840 minutes, `UTC-12` gives −720 minutes, and for any lookup
table `detectTimezone("meeting at 9am GMT-7")` is a manual offset of −420
minutes (= sign · (hours·60 + minutes)). -/
theorem detectTimezone_offset_validation :
    detectOffset (lowerStr "UTC+15").data = none ∧
    detectOffset (lowerStr "UTC-13").data = none ∧
    detectOffset (lowerStr "UTC+14").data = some 840 ∧
    detectOffset (lowerStr "UTC-12").data = some (-720) ∧
    ∀ tzMap : List (String × String),
      detectTimezone tzMap "meeting at 9am GMT-7" = TzResult.manualOffset (-420) := by
  refine ⟨by decide, by decide, by decide, by decide, fun tzMap => ?_⟩
  simp only [detectTimezone]
  rw [show detectOffset (lowerStr "meeting at 9am GMT-7").data = some (-420) from by decide]

/-- C6: the normalizer is not idempotent — `"11pm on 23"` normalizes (with a
September clock) to `"11pm on 23rd of September"`, and re-normalizing that
output appends a second `" of September"`. -/
theorem preprocess_double_append :
    preprocessText 1756684800000 "11pm on 23" = "11pm on 23rd of September" ∧
    preprocessText 1756684800000 (preprocessText 1756684800000 "11pm on 23")
      = "11pm on 23rd of September of September" ∧
    preprocessText 1756684800000 (preprocessText 1756684800000 "11pm on 23")
      ≠ preprocessText 1756684800000 "11pm on 23" :=
  ⟨by decide, by decide, by decide⟩

/-- C7: when `hasTimeForScheduling` is false the handler returns the
structured not-scheduling-relevant response and the only step performed is
the relevance check (no normalization, timezone detection, or date
parsing). -/
theorem relevance_gate_short_circuits (txt : String) (tzMap : List (String × String))
    (luxon : ZoneOracle) (chrono : String → List ChronoResult) (now : Int)
    (hne : txt ≠ "") (hrel : hasTimeForScheduling txt = false) :
    parseHandler tzMap luxon chrono now (some txt)
      = (Except.ok (Response.notRelevant txt), [Step.relevance]) := by
  simp only [parseHandler]
  rw [if_neg hne, hrel]
  rfl

theorem relevance_gate_short_circuits_witness :
    "hello world" ≠ "" ∧ hasTimeForScheduling "hello world" = false ∧
    parseHandler [] (constLuxon LuxonOutcome.invalid) (fun _ => []) 0 (some "hello world")
      = (Except.ok (Response.notRelevant "hello world"), [Step.relevance]) :=
  ⟨by decide, by decide,
   relevance_gate_short_circuits "hello world" [] (constLuxon LuxonOutcome.invalid)
     (fun _ => []) 0 (by decide) (by decide)⟩

/-- C1 counterexample: an end-of-range instant exactly one day before the
start is pushed forward by exactly one day, landing precisely on the start —
`end.epochSeconds > start.epochSeconds` fails (equality, not strictness). -/
theorem range_end_counterexample :
    (processChronoDate ⟨none, none, none, none, none, none, 86400000⟩ TzResult.noTz
        (constLuxon LuxonOutcome.invalid) true (some 172800000) "from 5pm to 4pm" 0).jsDate
      = 172800000 ∧
    ¬ (172800000 < (processChronoDate ⟨none, none, none, none, none, none, 86400000⟩
        TzResult.noTz (constLuxon LuxonOutcome.invalid) true (some 172800000)
        "from 5pm to 4pm" 0).jsDate) :=
  ⟨by decide, by decide⟩

/-- C1 amended: the end-of-range branch pushes a too-early end forward by
exactly one day (not in a loop), so strictness `start < end'` is guaranteed
exactly when the incoming end is less than one day before the start. -/
theorem range_end_policy_amended (d st now : Int) (txt : String)
    (h : st - oneDayMs < d) :
    st < adjustToFuture d txt true (some st) now := by
  show st < if d ≤ st then d + oneDayMs else if d < now then d + oneDayMs else d
  split_ifs <;> omega

theorem range_end_policy_amended_witness :
    (0 : Int) - oneDayMs < 43200000 ∧
    (0 : Int) < adjustToFuture 43200000 "x" true (some 0) 99999999999 :=
  ⟨by decide, range_end_policy_amended 43200000 0 99999999999 "x" (by decide)⟩

/-- C2 counterexample: a scheduling-relevant text without "today"
(`"meeting monday 3pm"`) whose chrono instant lies two weeks in the past is
only pushed one week forward by the weekday branch, so the resolved instant
is still before `now`. -/
theorem single_instant_past_counterexample :
    hasTimeForScheduling "meeting monday 3pm" = true ∧
    includesSub "today".data (lowerStr "meeting monday 3pm").data = false ∧
    (processChronoDate ⟨none, none, none, none, none, none, 1798790400000⟩ TzResult.noTz
        (constLuxon LuxonOutcome.invalid) false none "meeting monday 3pm"
        1800000000000).jsDate < 1800000000000 :=
  ⟨by decide, by decide, by decide⟩

/-- C2 amended: the non-end `adjustToFuture` cascade guarantees
`result ≥ now` whenever the pre-policy instant is at most one day in the
past (the tomorrow/today/bare-time branches guarantee it unconditionally,
the weekday branch then has a week of slack); through `processChronoDate`
(no timezone) the same bound applies to the naive chrono instant. -/
theorem future_policy_amended :
    (∀ (d now : Int) (txt : String), now - oneDayMs ≤ d →
      now ≤ adjustToFuture d txt false none now) ∧
    (∀ (comp : ChronoComponent) (txt : String) (luxon : ZoneOracle) (now : Int),
      now - oneDayMs ≤ comp.dateMs →
      now ≤ (processChronoDate comp TzResult.noTz luxon false none txt now).jsDate) := by
  have main : ∀ (d now : Int) (txt : String), now - oneDayMs ≤ d →
      now ≤ adjustToFuture d txt false none now := by
    intro d now txt h
    show now ≤
      if includesSub "tomorrow".data (lowerStr txt).data = true then
        dayFloorMs now + oneDayMs + todSecMs d
      else if includesSub "today".data (lowerStr txt).data = true then
        (if dayFloorMs now + todSecMs d ≤ now then dayFloorMs now + todSecMs d + oneDayMs
         else dayFloorMs now + todSecMs d)
      else if d ≤ now then
        (if hasWeekdayWord (lowerStr txt).data = true then d + oneWeekMs
         else if isBareTimeText (lowerStr txt).data = true then
           (if now < dayFloorMs now + todSecMs d then dayFloorMs now + todSecMs d
            else dayFloorMs now + todSecMs d + oneDayMs)
         else d + oneDayMs)
      else d
    have h1 := todSecMs_nonneg d
    have h2 := dayFloorMs_le now
    have h3 := lt_dayFloorMs_add now
    have h4 : 0 < oneWeekMs := by decide
    have h5 : oneDayMs ≤ oneWeekMs := by decide
    split_ifs <;> omega
  exact ⟨main, fun comp txt luxon now h => main comp.dateMs now txt h⟩

theorem future_policy_amended_witness :
    (0 : Int) - oneDayMs ≤ 0 ∧ (0 : Int) ≤ adjustToFuture 0 "x" false none 0 :=
  ⟨by decide, future_policy_amended.1 0 0 "x" (by decide)⟩

/-- C8: when Luxon zone construction yields an invalid `DateTime` or throws,
every path (weekday series, date-range series, generic start/end component;
named zone or manual offset) produces exactly what the no-timezone pipeline
produces — the failure is absorbed locally and the naive instant is used. -/
theorem conversion_failure_falls_back :
    ∀ o : LuxonOutcome, (o = LuxonOutcome.invalid ∨ o = LuxonOutcome.thrown) →
    (∀ (txt z : String) (now : Int),
        parseMultipleDays txt (TzResult.namedZone z) (constLuxon o) now
          = parseMultipleDays txt TzResult.noTz (constLuxon o) now) ∧
    (∀ (txt z : String) (now : Int),
        parseDateRange txt (TzResult.namedZone z) (constLuxon o) now
          = parseDateRange txt TzResult.noTz (constLuxon o) now) ∧
    (∀ (comp : ChronoComponent) (z : String) (isEnd : Bool) (st : Option Int)
        (txt : String) (now : Int),
        processChronoDate comp (TzResult.namedZone z) (constLuxon o) isEnd st txt now
          = processChronoDate comp TzResult.noTz (constLuxon o) isEnd st txt now) ∧
    (∀ (comp : ChronoComponent) (off : Int) (isEnd : Bool) (st : Option Int)
        (txt : String) (now : Int),
        processChronoDate comp (TzResult.manualOffset off) (constLuxon o) isEnd st txt now
          = processChronoDate comp TzResult.noTz (constLuxon o) isEnd st txt now) := by
  intro o ho
  have hmd : ∀ (txt z : String) (now : Int),
      parseMultipleDays txt (TzResult.namedZone z) (constLuxon o) now
        = parseMultipleDays txt TzResult.noTz (constLuxon o) now := by
    intro txt z now
    unfold parseMultipleDays
    rcases ho with rfl | rfl <;>
      cases weeklyMatch txt.data with
      | none => rfl
      | some p =>
        cases timeMatch12 txt.data with
        | none => rfl
        | some q => rfl
  have hdr : ∀ (txt z : String) (now : Int),
      parseDateRange txt (TzResult.namedZone z) (constLuxon o) now
        = parseDateRange txt TzResult.noTz (constLuxon o) now := by
    intro txt z now
    unfold parseDateRange
    rcases ho with rfl | rfl <;>
      cases scanStr dateRangeMatchAt txt.data with
      | none => rfl
      | some p => rfl
  refine ⟨hmd, hdr, fun comp z e st txt now => ?_, fun comp off e st txt now => ?_⟩ <;>
    rcases ho with rfl | rfl <;> rfl

theorem conversion_failure_falls_back_witness :
    (LuxonOutcome.invalid = LuxonOutcome.invalid ∨
      LuxonOutcome.invalid = LuxonOutcome.thrown) ∧
    parseMultipleDays "available on monday 10pm to thursday 10pm est"
        (TzResult.namedZone "America/New_York") (constLuxon LuxonOutcome.invalid) 0
      = parseMultipleDays "available on monday 10pm to thursday 10pm est"
        TzResult.noTz (constLuxon LuxonOutcome.invalid) 0 :=
  ⟨Or.inl rfl,
   (conversion_failure_falls_back LuxonOutcome.invalid (Or.inl rfl)).1
     "available on monday 10pm to thursday 10pm est" "America/New_York" 0⟩

/-- None of the normalizer patterns fires on the reversed date-range text,
for any clock instant (the matchers never consult the month name). -/
theorem preprocess_noop_rev (now : Int) :
    preprocessText now "available from 20th to 15th at 10pm"
      = "available from 20th to 15th at 10pm" := rfl

/-- The date-range example text is left unchanged by the normalizer. -/
theorem preprocess_noop_range (now : Int) :
    preprocessText now "available from 15th to 20th at 10pm netherlands"
      = "available from 15th to 20th at 10pm netherlands" := rfl

/-- The weekday-range example text is left unchanged by the normalizer. -/
theorem preprocess_noop_weekly (now : Int) :
    preprocessText now "available on monday 10pm to thursday 10pm est"
      = "available on monday 10pm to thursday 10pm est" := rfl

set_option maxHeartbeats 2000000 in
/-- C10: for a date-range text whose start day exceeds its end day the
expander matches but its day loop runs zero times, returning an empty (yet
truthy) series; the handler then dereferences `dateRangeResult[0]`, and the
thrown `TypeError` reaches the 500 middleware (the `Except.error` outcome)
instead of a structured negative JSON. -/
theorem empty_range_series_500 (tzMap : List (String × String)) (luxon : ZoneOracle)
    (chrono : String → List ChronoResult) (now : Int) :
    parseDateRange "available from 20th to 15th at 10pm"
        (detectTimezone tzMap "available from 20th to 15th at 10pm") luxon now
      = some [] ∧
    (parseHandler tzMap luxon chrono now (some "available from 20th to 15th at 10pm")).1
      = Except.error () := by
  have h1 : ∀ (tz : TzResult) (lux : ZoneOracle),
      parseDateRange "available from 20th to 15th at 10pm" tz lux now = some [] := by
    intro tz lux
    simp only [parseDateRange]
    rw [show scanStr dateRangeMatchAt "available from 20th to 15th at 10pm".data
        = some (20, 15, 10, 0, true) from by decide]
    rfl
  have h2 : ∀ (tz : TzResult) (lux : ZoneOracle),
      parseMultipleDays "available from 20th to 15th at 10pm" tz lux now = none := by
    intro tz lux
    simp only [parseMultipleDays]
    rw [show weeklyMatch "available from 20th to 15th at 10pm".data = none from by decide]
  refine ⟨h1 _ _, ?_⟩
  simp only [parseHandler]
  rw [if_neg (by decide : ¬("available from 20th to 15th at 10pm" = "")),
    show hasTimeForScheduling "available from 20th to 15th at 10pm" = true from by decide,
    preprocess_noop_rev now, h2, h1]
  rfl

set_option maxHeartbeats 2000000 in
/-- C9 counterexample: two clock streams that agree on the request-arrival
read (`clock 0`, 2025-11-10) but differ on the later reads (the second
stream jumps a month ahead) produce different date-range resolutions — the
result is not a function of text and arrival instant alone, because `now` is
re-sampled at each `new Date()` site. -/
theorem clock_resample_counterexample :
    (fun _ : Nat => (1762732800000 : Int)) 0
      = (fun n : Nat => if n = 0 then (1762732800000 : Int) else 1765324800000) 0 ∧
    resolveExpandersClocked [] (constLuxon LuxonOutcome.invalid)
        "available from 15th to 20th at 10pm" (fun _ => 1762732800000)
      ≠ resolveExpandersClocked [] (constLuxon LuxonOutcome.invalid)
        "available from 15th to 20th at 10pm"
        (fun n => if n = 0 then 1762732800000 else 1765324800000) :=
  ⟨rfl, by decide⟩

set_option maxHeartbeats 2000000 in
/-- C9 amended: the clock is read once per `new Date()` site, not once per
request — the date-range resolution of this text performs 8 reads
(normalizer 1, expander 1, future policy 6) — and the result is a function
of the whole sequence of reads: any stream that is constantly `t` resolves
exactly like the canonical constant-`t` clock. -/
theorem clock_usage_amended :
    (∀ t : Int, (resolveExpandersClocked [] (constLuxon LuxonOutcome.invalid)
        "available from 15th to 20th at 10pm" (fun _ => t)).2 = 8) ∧
    (∀ (s : Nat → Int) (t : Int), (∀ i, s i = t) →
      resolveExpandersClocked [] (constLuxon LuxonOutcome.invalid)
          "available from 15th to 20th at 10pm" s
        = resolveExpandersClocked [] (constLuxon LuxonOutcome.invalid)
          "available from 15th to 20th at 10pm" (fun _ => t)) := by
  constructor
  · intro t
    rfl
  · intro s t hs
    have he : s = fun _ => t := funext hs
    rw [he]

theorem clock_usage_amended_witness :
    resolveExpandersClocked [] (constLuxon LuxonOutcome.invalid)
        "available from 15th to 20th at 10pm" (fun _ => 0)
      = resolveExpandersClocked [] (constLuxon LuxonOutcome.invalid)
        "available from 15th to 20th at 10pm" (fun _ => 0) :=
  clock_usage_amended.2 (fun _ => 0) 0 (fun _ => rfl)

set_option maxHeartbeats 2000000 in
/-- C3 counterexample: with the request arriving 2025-11-25 12:00 UTC (after
the month's 15th–20th 22:00 span has elapsed), the date-range expander for
"available from 15th to 20th at 10pm netherlands" still returns six entries
labelled 15–20, but each instant was only advanced by one calendar day (16th
to 21st of the same month at 22:00 Amsterdam time = 21:00 UTC), not rolled
to the next month, and every one of them — the largest being
1763758800000 — is strictly before `now` = 1764072000000. -/
theorem date_range_past_counterexample :
    detectTimezone [("netherlands", "Europe/Amsterdam")]
        "available from 15th to 20th at 10pm netherlands"
      = TzResult.namedZone "Europe/Amsterdam" ∧
    parseDateRange "available from 15th to 20th at 10pm netherlands"
        (TzResult.namedZone "Europe/Amsterdam") (fixedOffsetLuxon 60) 1764072000000
      = some [⟨15, 1763326800000, some false, 1763326800⟩,
              ⟨16, 1763413200000, some false, 1763413200⟩,
              ⟨17, 1763499600000, some false, 1763499600⟩,
              ⟨18, 1763586000000, some false, 1763586000⟩,
              ⟨19, 1763672400000, some false, 1763672400⟩,
              ⟨20, 1763758800000, some false, 1763758800⟩] ∧
    (1763758800000 : Int) < 1764072000000 :=
  ⟨by decide, by decide, by decide⟩

/-- The future policy leaves an instant that is still ahead of `now`
unchanged for the date-range example text (which contains neither
"tomorrow" nor "today"). -/
theorem adjust_noop_range (d now : Int) (hd : now < d) :
    adjustToFuture d "available from 15th to 20th at 10pm netherlands" false none now = d := by
  show (if includesSub "tomorrow".data
          (lowerStr "available from 15th to 20th at 10pm netherlands").data = true then
        dayFloorMs now + oneDayMs + todSecMs d
      else if includesSub "today".data
          (lowerStr "available from 15th to 20th at 10pm netherlands").data = true then
        (if dayFloorMs now + todSecMs d ≤ now then dayFloorMs now + todSecMs d + oneDayMs
         else dayFloorMs now + todSecMs d)
      else if d ≤ now then
        (if hasWeekdayWord (lowerStr "available from 15th to 20th at 10pm netherlands").data
            = true then d + oneWeekMs
         else if isBareTimeText
            (lowerStr "available from 15th to 20th at 10pm netherlands").data = true then
           (if now < dayFloorMs now + todSecMs d then dayFloorMs now + todSecMs d
            else dayFloorMs now + todSecMs d + oneDayMs)
         else d + oneDayMs)
      else d) = d
  rw [if_neg (by decide : ¬(includesSub "tomorrow".data
        (lowerStr "available from 15th to 20th at 10pm netherlands").data = true)),
    if_neg (by decide : ¬(includesSub "today".data
        (lowerStr "available from 15th to 20th at 10pm netherlands").data = true)),
    if_neg (by omega : ¬(d ≤ now))]

set_option maxHeartbeats 2000000 in
/-- C3 amended: in a November-2025 request month, while day 15's 22:00
Amsterdam instant is still ahead, the expander returns exactly six entries,
days 15-20, each at 22:00 Amsterdam time (21:00 UTC), all ≥ `now`; when a
day has already elapsed the policy advances it by exactly one calendar day
(see the counterexample), never to the next month. -/
theorem date_range_amended (now : Int)
    (h1 : jsGetFullYear now = 2025) (h2 : jsGetMonth now = 10)
    (h3 : now ≤ 1763240400000) :
    parseDateRange "available from 15th to 20th at 10pm netherlands"
        (TzResult.namedZone "Europe/Amsterdam") (fixedOffsetLuxon 60) now
      = some [⟨15, 1763240400000, some false, 1763240400⟩,
              ⟨16, 1763326800000, some false, 1763326800⟩,
              ⟨17, 1763413200000, some false, 1763413200⟩,
              ⟨18, 1763499600000, some false, 1763499600⟩,
              ⟨19, 1763586000000, some false, 1763586000⟩,
              ⟨20, 1763672400000, some false, 1763672400⟩] ∧
    (∀ e ∈ [(⟨15, 1763240400000, some false, 1763240400⟩ : RangeEntry),
            ⟨16, 1763326800000, some false, 1763326800⟩,
            ⟨17, 1763413200000, some false, 1763413200⟩,
            ⟨18, 1763499600000, some false, 1763499600⟩,
            ⟨19, 1763586000000, some false, 1763586000⟩,
            ⟨20, 1763672400000, some false, 1763672400⟩], now ≤ e.jsDate) := by
  constructor
  · simp only [parseDateRange]
    rw [show scanStr dateRangeMatchAt
        "available from 15th to 20th at 10pm netherlands".data
        = some (15, 20, 10, 0, true) from by decide, h1, h2]
    dsimp only
    rw [show dayListFromTo ((15 : Nat) : Int) ((20 : Nat) : Int)
        = [15, 16, 17, 18, 19, 20] from by decide]
    simp only [List.map]
    rw [adjust_noop_range (mkDateMs 2025 10 15 (to24 10 true) ((0 : Nat) : Int) 0) now
          (lt_of_le_of_lt h3 (by decide)),
        adjust_noop_range (mkDateMs 2025 10 16 (to24 10 true) ((0 : Nat) : Int) 0) now
          (lt_of_le_of_lt h3 (by decide)),
        adjust_noop_range (mkDateMs 2025 10 17 (to24 10 true) ((0 : Nat) : Int) 0) now
          (lt_of_le_of_lt h3 (by decide)),
        adjust_noop_range (mkDateMs 2025 10 18 (to24 10 true) ((0 : Nat) : Int) 0) now
          (lt_of_le_of_lt h3 (by decide)),
        adjust_noop_range (mkDateMs 2025 10 19 (to24 10 true) ((0 : Nat) : Int) 0) now
          (lt_of_le_of_lt h3 (by decide)),
        adjust_noop_range (mkDateMs 2025 10 20 (to24 10 true) ((0 : Nat) : Int) 0) now
          (lt_of_le_of_lt h3 (by decide))]
    decide
  · intro e he
    fin_cases he <;> exact le_trans h3 (by decide)


/-- A weekday-expander instant: next occurrence of the weekday at 22:00,
reinterpreted in a fixed-offset zone, is strictly after `now` and reads
22:00 on the zone's wall clock. -/
theorem c4key (now o dayNum : Int) (h0 : 0 ≤ dayNum) (h6 : dayNum ≤ 6)
    (ho1 : -840 ≤ o) (ho2 : o ≤ 840) :
    now < mkDateMs
        (jsGetFullYear (setHMS (now + (if dayNum - jsGetDay now ≤ 0
            then dayNum - jsGetDay now + 7 else dayNum - jsGetDay now) * oneDayMs) 22 0 0))
        (jsGetMonth (setHMS (now + (if dayNum - jsGetDay now ≤ 0
            then dayNum - jsGetDay now + 7 else dayNum - jsGetDay now) * oneDayMs) 22 0 0)
          + 1 - 1)
        (jsGetDate (setHMS (now + (if dayNum - jsGetDay now ≤ 0
            then dayNum - jsGetDay now + 7 else dayNum - jsGetDay now) * oneDayMs) 22 0 0))
        22 0 0 - o * 60000 ∧
    (mkDateMs
        (jsGetFullYear (setHMS (now + (if dayNum - jsGetDay now ≤ 0
            then dayNum - jsGetDay now + 7 else dayNum - jsGetDay now) * oneDayMs) 22 0 0))
        (jsGetMonth (setHMS (now + (if dayNum - jsGetDay now ≤ 0
            then dayNum - jsGetDay now + 7 else dayNum - jsGetDay now) * oneDayMs) 22 0 0)
          + 1 - 1)
        (jsGetDate (setHMS (now + (if dayNum - jsGetDay now ≤ 0
            then dayNum - jsGetDay now + 7 else dayNum - jsGetDay now) * oneDayMs) 22 0 0))
        22 0 0 - o * 60000 + o * 60000) % oneDayMs = 79200000 := by
  set du : Int := if dayNum - jsGetDay now ≤ 0
      then dayNum - jsGetDay now + 7 else dayNum - jsGetDay now with hdu
  have hwb := jsGetDay_bounds now
  have hdu1 : 1 ≤ du := by
    rw [hdu]
    split_ifs <;> omega
  have e2 : setHMS (now + du * oneDayMs) 22 0 0
      = dayFloorMs (now + du * oneDayMs) + 79200000 := by
    unfold setHMS
    norm_num
  rw [e2]
  have e3 : jsGetMonth (dayFloorMs (now + du * oneDayMs) + 79200000) + 1 - 1
      = jsGetMonth (dayFloorMs (now + du * oneDayMs) + 79200000) := by ring
  rw [e3, mkDateMs_fields,
    dayFloorMs_add_small (now + du * oneDayMs) 79200000 (by norm_num) (by decide),
    dayFloorMs_add_mul]
  have h3 := lt_dayFloorMs_add now
  have h4 := dayFloorMs_le now
  constructor
  · unfold oneDayMs at h3 ⊢
    omega
  · rw [show dayFloorMs now + du * oneDayMs + 22 * 3600000 + 0 * 60000 + 0 * 1000
        - o * 60000 + o * 60000 = dayFloorMs (now + du * oneDayMs) + 79200000 from by
      rw [dayFloorMs_add_mul]
      ring]
    exact emod_small_add _ _ (by norm_num) (by decide)

set_option maxHeartbeats 4000000 in
/-- C4: for "available on monday 10pm to thursday 10pm est" the weekday
expander produces exactly Monday-Thursday (the inclusive modulo-7 walk),
each entry at 22:00 local-wall-clock before conversion (`(jsDate + offset)
mod day = 22h`), every timestamp strictly after `now` for any fixed zone
offset within UTC-14..UTC+14 (EST's −300 included), and the handler returns
the `is_multiple_times` response built from exactly those entries. -/
theorem weekday_series_correct (now o : Int) (chrono : String → List ChronoResult)
    (ho1 : -840 ≤ o) (ho2 : o ≤ 840) :
    (parseMultipleDays "available on monday 10pm to thursday 10pm est"
        (TzResult.namedZone "America/New_York") (fixedOffsetLuxon o) now).map
        (fun l => l.map (fun e => e.label))
      = some ["monday", "tuesday", "wednesday", "thursday"] ∧
    (∀ l, parseMultipleDays "available on monday 10pm to thursday 10pm est"
          (TzResult.namedZone "America/New_York") (fixedOffsetLuxon o) now = some l →
        ∀ e ∈ l, now < e.jsDate ∧ (e.jsDate + o * 60000) % oneDayMs = 79200000) ∧
    (okResponse (parseHandler
          [("netherlands", "Europe/Amsterdam"), ("est", "America/New_York")]
          (fixedOffsetLuxon o) chrono now
          (some "available on monday 10pm to thursday 10pm est")).1).map respIsMultiTimes
      = some true ∧
    (okResponse (parseHandler
          [("netherlands", "Europe/Amsterdam"), ("est", "America/New_York")]
          (fixedOffsetLuxon o) chrono now
          (some "available on monday 10pm to thursday 10pm est")).1).map respDayTimes
      = (parseMultipleDays "available on monday 10pm to thursday 10pm est"
          (TzResult.namedZone "America/New_York") (fixedOffsetLuxon o) now) := by
  refine ⟨rfl, ?_, ?_, ?_⟩
  · intro l hl
    simp only [parseMultipleDays] at hl
    rw [show weeklyMatch "available on monday 10pm to thursday 10pm est".data
        = some (1, 4) from by decide,
      show timeMatch12 "available on monday 10pm to thursday 10pm est".data
        = some (10, 0, true) from by decide] at hl
    dsimp only at hl
    rw [show walkDays 1 4 = [1, 2, 3, 4] from by decide] at hl
    simp only [List.map] at hl
    injection hl with hl2
    subst hl2
    intro e he
    fin_cases he
    · exact ⟨(c4key now o 1 (by norm_num) (by norm_num) ho1 ho2).1,
        (c4key now o 1 (by norm_num) (by norm_num) ho1 ho2).2⟩
    · exact ⟨(c4key now o 2 (by norm_num) (by norm_num) ho1 ho2).1,
        (c4key now o 2 (by norm_num) (by norm_num) ho1 ho2).2⟩
    · exact ⟨(c4key now o 3 (by norm_num) (by norm_num) ho1 ho2).1,
        (c4key now o 3 (by norm_num) (by norm_num) ho1 ho2).2⟩
    · exact ⟨(c4key now o 4 (by norm_num) (by norm_num) ho1 ho2).1,
        (c4key now o 4 (by norm_num) (by norm_num) ho1 ho2).2⟩
  · simp only [parseHandler]
    rw [if_neg (by decide : ¬("available on monday 10pm to thursday 10pm est" = "")),
      show hasTimeForScheduling "available on monday 10pm to thursday 10pm est" = true
        from by decide,
      preprocess_noop_weekly now,
      show detectTimezone [("netherlands", "Europe/Amsterdam"), ("est", "America/New_York")]
          "available on monday 10pm to thursday 10pm est"
        = TzResult.namedZone "America/New_York" from by decide]
    rfl
  · simp only [parseHandler]
    rw [if_neg (by decide : ¬("available on monday 10pm to thursday 10pm est" = "")),
      show hasTimeForScheduling "available on monday 10pm to thursday 10pm est" = true
        from by decide,
      preprocess_noop_weekly now,
      show detectTimezone [("netherlands", "Europe/Amsterdam"), ("est", "America/New_York")]
          "available on monday 10pm to thursday 10pm est"
        = TzResult.namedZone "America/New_York" from by decide]
    rfl


theorem date_range_amended_witness :
    jsGetFullYear 1762732800000 = 2025 ∧ jsGetMonth 1762732800000 = 10 ∧
    (1762732800000 : Int) ≤ 1763240400000 ∧
    parseDateRange "available from 15th to 20th at 10pm netherlands"
        (TzResult.namedZone "Europe/Amsterdam") (fixedOffsetLuxon 60) 1762732800000
      = some [⟨15, 1763240400000, some false, 1763240400⟩,
              ⟨16, 1763326800000, some false, 1763326800⟩,
              ⟨17, 1763413200000, some false, 1763413200⟩,
              ⟨18, 1763499600000, some false, 1763499600⟩,
              ⟨19, 1763586000000, some false, 1763586000⟩,
              ⟨20, 1763672400000, some false, 1763672400⟩] :=
  ⟨by decide, by decide, by decide,
   (date_range_amended 1762732800000 (by decide) (by decide) (by decide)).1⟩

theorem weekday_series_correct_witness :
    (-840 : Int) ≤ -300 ∧ (-300 : Int) ≤ 840 ∧
    (parseMultipleDays "available on monday 10pm to thursday 10pm est"
        (TzResult.namedZone "America/New_York") (fixedOffsetLuxon (-300)) 0).map
        (fun l => l.map (fun e => e.label))
      = some ["monday", "tuesday", "wednesday", "thursday"] :=
  ⟨by decide, by decide,
   (weekday_series_correct 0 (-300) (fun _ => []) (by decide) (by decide)).1⟩
